import Mathlib

/-!
# Verification of the tetanes APU audio pipeline

A shallow embedding of the APU subsystem of the tetanes NES emulator
(`tetanes-core/src/apu.rs`, `apu/frame_counter.rs`, `apu/envelope.rs`),
together with proofs about the claims of the natural-language specification.

The frame counter, the envelope, the APU orchestration (`clock_lazy`,
`should_clock`, `clock_to`, `clock_flush`, the register write handlers,
`read_status`/`peek_status`, `process_outputs`, `reset`) and the two mixing
tables are translated directly from the Rust source.  The channel generators
(pulse, triangle, noise), the DMC, the length counter and the filter chain are
not part of the provided sources; they are modelled from the specification and
are marked as such in their doc comments.

Machine integers (`u8`, `u16`, `usize`) are embedded as `ℕ` with explicit
masking where the source masks; `f32` sample values are embedded as `ℚ`
(every per-channel level is a small integer, exactly representable, and the
index arithmetic done on samples in the source is exact in `f32` on that
range).  The `FnMut(FrameType)` callback of the frame counter is embedded as
a returned list of `FrameType` events, applied by the caller in order — the
reframing the specification itself proposes in its design notes.
-/

/-- NES region (from `common::NesRegion`; the `common.rs` source is not under
`src/`, but the variant set is fixed by its uses in `frame_counter.rs`). -/
inductive NesRegion
  | Ntsc
  | Pal
  | Dendy
deriving DecidableEq, Repr, Inhabited

/-- Reset kind (from `common::ResetKind`): soft reset or hard power cycle. -/
inductive ResetKind
  | Soft
  | Hard
deriving DecidableEq, Repr

/-- The Frame Counter step sequence mode (`frame_counter.rs`). -/
inductive Mode
  | Step4
  | Step5
deriving DecidableEq, Repr

instance : Inhabited Mode := ⟨Mode.Step4⟩

/-- The Frame Counter clock type (`frame_counter.rs`). -/
inductive FrameType
  | None
  | Quarter
  | Half
deriving DecidableEq, Repr

/-- Index of a `Mode` as used by `self.mode as usize` in the source. -/
def Mode.idx : Mode → ℕ
  | .Step4 => 0
  | .Step5 => 1

/-- The APU Frame Counter state (`frame_counter.rs`, struct `FrameCounter`). -/
@[ext]
structure FrameCounter where
  region : NesRegion
  step_cycles : List (List ℕ)
  step : ℕ
  mode : Mode
  write_buffer : Option ℕ
  write_delay : ℕ
  block_counter : ℕ
  cycle : ℕ
  inhibit_irq : Bool
  irq_pending : Bool
deriving DecidableEq, Repr

namespace FrameCounter

/-- `FrameCounter::STEP_CYCLES_NTSC`. -/
def STEP_CYCLES_NTSC : List (List ℕ) :=
  [[7457, 14913, 22371, 29828, 29829, 29830],
   [7457, 14913, 22371, 29829, 37281, 37282]]

/-- `FrameCounter::STEP_CYCLES_PAL`. -/
def STEP_CYCLES_PAL : List (List ℕ) :=
  [[8313, 16627, 24939, 33252, 33253, 33254],
   [8313, 16627, 24939, 33253, 41565, 41566]]

/-- `FrameCounter::FRAME_TYPE`. -/
def FRAME_TYPE : List FrameType :=
  [.Quarter, .Half, .Quarter, .None, .Half, .None]

/-- `FrameCounter::step_cycles(region)` — the region-dependent table selector. -/
def stepCyclesOf : NesRegion → List (List ℕ)
  | .Ntsc | .Dendy => STEP_CYCLES_NTSC
  | .Pal => STEP_CYCLES_PAL

/-- `FrameCounter::new(region)`. -/
def new (region : NesRegion) : FrameCounter where
  region := region
  step_cycles := stepCyclesOf region
  step := 0
  mode := .Step4
  write_buffer := none
  write_delay := 0
  block_counter := 0
  cycle := 0
  inhibit_irq := false
  irq_pending := false

/-- `FrameCounter::set_region`. -/
def set_region (fc : FrameCounter) (region : NesRegion) : FrameCounter :=
  { fc with region := region, step_cycles := stepCyclesOf region }

/-- `FrameCounter::write` — on write to $4017.  `cycle & 0x01 == 0x01` is
embedded as `cycle % 2 = 1`, and the bit tests `val & 0x40 == 0x40` as
`val.testBit 6`. -/
def write (fc : FrameCounter) (val cycle : ℕ) : FrameCounter :=
  let fc := { fc with
    write_buffer := some val
    write_delay := if cycle % 2 = 1 then 4 else 3
    inhibit_irq := val.testBit 6 }
  if fc.inhibit_irq then { fc with irq_pending := false } else fc

/-- The current step threshold `self.step_cycles[self.mode as usize][self.step]`
(always in bounds in reachable states: `step < 6` and the table is 2×6). -/
def threshold (fc : FrameCounter) : ℕ :=
  (fc.step_cycles.getD fc.mode.idx []).getD fc.step 0

/-- `FrameCounter::should_clock` (the `&mut self` in the source never
mutates). -/
def should_clock (fc : FrameCounter) (cycles : ℕ) : Bool :=
  fc.write_buffer.isSome || fc.block_counter > 0 ||
    decide (fc.cycle + cycles ≥ fc.threshold - 1)

/-- Result of one invocation of `FrameCounter::clock_to_with`: the updated
counter, the number of cycles consumed (the `usize` the source returns), the
remaining cycles (the final value of the `&mut usize` argument), and the
`FrameType` events passed to the `on_clock` callback, in order. -/
@[ext]
structure StepResult where
  fc : FrameCounter
  consumed : ℕ
  remaining : ℕ
  events : List FrameType
deriving DecidableEq, Repr

/-- The step-boundary part of `FrameCounter::clock_to_with`
(`frame_counter.rs` lines 124–156): raise the IRQ flag in late 4-step steps,
fire the per-step frame-type callback when not blocked, consume cycles up to
the step threshold (or all of them when the threshold is out of reach), and
advance/wrap the step index. -/
def stepPhase (fc : FrameCounter) (cycle : ℕ) : StepResult :=
  let step_cycles := fc.threshold
  if fc.cycle + cycle ≥ step_cycles then
    let fc1 :=
      if ¬fc.inhibit_irq ∧ fc.mode = .Step4 ∧ fc.step ≥ 3 then
        { fc with irq_pending := true }
      else fc
    let ty := FRAME_TYPE.getD fc1.step .None
    let fire := ty ≠ FrameType.None ∧ fc1.block_counter = 0
    let fc2 := if fire then { fc1 with block_counter := 2 } else fc1
    let evs := if fire then [ty] else []
    let cycles := if step_cycles ≥ fc2.cycle then step_cycles - fc2.cycle else 0
    let rem := cycle - cycles
    let fc3 :=
      if fc2.step + 1 = 6 then
        { fc2 with step := 0, cycle := 0 }
      else
        { fc2 with step := fc2.step + 1, cycle := fc2.cycle + cycles }
    StepResult.mk fc3 cycles rem evs
  else
    StepResult.mk { fc with cycle := fc.cycle + cycle } cycle 0 []

/-- The pending-$4017-write part of `FrameCounter::clock_to_with`
(`frame_counter.rs` lines 158–175): count the write delay down once per
invocation and, on expiry, install the buffered mode, reset step and cycle,
and fire one immediate half-frame clock when the new mode is 5-step and the
block counter is clear. -/
def writePhase (r : StepResult) : StepResult :=
  match r.fc.write_buffer with
  | some val =>
    let fc := { r.fc with write_delay := r.fc.write_delay - 1 }
    if fc.write_delay = 0 then
      let fc := { fc with
        mode := if val.testBit 7 then Mode.Step5 else Mode.Step4
        step := 0
        cycle := 0
        write_buffer := none }
      if fc.mode = Mode.Step5 ∧ fc.block_counter = 0 then
        { r with fc := { fc with block_counter := 2 }
                 events := r.events ++ [FrameType.Half] }
      else { r with fc := fc }
    else { r with fc := fc }
  | none => r

/-- The trailing block-counter decrement of `FrameCounter::clock_to_with`
(`frame_counter.rs` lines 177–179). -/
def blockPhase (r : StepResult) : StepResult :=
  if r.fc.block_counter > 0 then
    { r with fc := { r.fc with block_counter := r.fc.block_counter - 1 } }
  else r

/-- `FrameCounter::clock_to_with(cycle, on_clock)`: the three phases above in
source order.  The callback is embedded as the returned event list. -/
def clock_to_with (fc : FrameCounter) (cycle : ℕ) : StepResult :=
  blockPhase (writePhase (stepPhase fc cycle))

/-- `Reset for FrameCounter`. -/
def reset (fc : FrameCounter) (kind : ResetKind) : FrameCounter :=
  let fc := if kind = ResetKind.Hard then { fc with mode := Mode.Step4 } else fc
  { fc with
    step := 0
    write_buffer := some (match fc.mode with | .Step4 => 0x00 | .Step5 => 0x80)
    write_delay := 3
    block_counter := 0
    cycle := 0
    irq_pending := false
    inhibit_irq := false }

end FrameCounter

/-- APU Envelope state (`envelope.rs`, struct `Envelope`). -/
@[ext]
structure Envelope where
  enabled : Bool
  loops : Bool
  reset : Bool
  volume : ℕ
  constant_volume : ℕ
  counter : ℕ
deriving DecidableEq, Repr

namespace Envelope

/-- `Envelope::new`. -/
def new : Envelope where
  enabled := false
  loops := false
  reset := false
  volume := 0
  constant_volume := 0
  counter := 0

/-- `Envelope::write_ctrl` — `(val >> 5) & 1 == 1` is `val.testBit 5`,
`(val >> 4) & 1 == 0` is `¬ val.testBit 4`, `val & 0x0F` is `val % 16`. -/
def write_ctrl (e : Envelope) (val : ℕ) : Envelope :=
  { e with
    loops := val.testBit 5
    enabled := !val.testBit 4
    constant_volume := val % 16 }

/-- `Clock for Envelope::clock` (the returned tick count `1` is dropped; only
the state matters here). -/
def clock (e : Envelope) : Envelope :=
  if e.reset then
    { e with reset := false, volume := 0x0F, counter := e.constant_volume }
  else if e.counter > 0 then
    { e with counter := e.counter - 1 }
  else
    { e with
      counter := e.constant_volume
      volume :=
        if e.volume > 0 then e.volume - 1
        else if e.loops then 0x0F else e.volume }

/-- Modelled from the spec (§4.2, `envelope.rs` has no output accessor in the
provided sources): output volume is the constant volume in constant-volume
mode, else the decay volume; `enabled` is the inverted constant-volume bit. -/
def output (e : Envelope) : ℕ :=
  if e.enabled then e.volume else e.constant_volume

end Envelope

/-- APU Channel (`apu.rs`, enum `Channel`). -/
inductive Channel
  | Pulse1
  | Pulse2
  | Triangle
  | Noise
  | Dmc
  | Mapper
deriving DecidableEq, Repr

/-- Error when parsing `Channel` from a `usize` (`apu.rs`,
struct `ParseChannelError`). -/
structure ParseChannelError where
deriving DecidableEq, Repr

/-- `TryFrom<usize> for Channel`. -/
def Channel.try_from (value : ℕ) : Except ParseChannelError Channel :=
  match value with
  | 0 => .ok .Pulse1
  | 1 => .ok .Pulse2
  | 2 => .ok .Triangle
  | 3 => .ok .Noise
  | 4 => .ok .Dmc
  | _ => .error ⟨⟩

/-- `PULSE_TABLE` (`apu.rs`): the 31-entry non-linear pulse mixing table.
The `f32` literals of the source are embedded as the exact decimal rationals
they are written as. -/
def PULSE_TABLE : List ℚ := [
  0.0, 0.011609139, 0.02293948, 0.034000948, 0.044803,
  0.05535466, 0.06566453, 0.07574082, 0.0855914, 0.09522375,
  0.10464504, 0.11386215, 0.12288164, 0.1317098, 0.14035264,
  0.14881596, 0.15710525, 0.16522588, 0.17318292, 0.18098126,
  0.18862559, 0.19612046, 0.20347017, 0.21067894, 0.21775076,
  0.2246895, 0.23149887, 0.23818247, 0.24474378, 0.25118607,
  0.25751257]

/-- `TND_TABLE` (`apu.rs`): the 203-entry non-linear triangle/noise/DMC
mixing table, embedded the same way. -/
def TND_TABLE : List ℚ := [
  0.0, 0.006699824, 0.01334502, 0.019936256, 0.02647418,
  0.032959443, 0.039392676, 0.0457745, 0.052105535, 0.05838638,
  0.064617634, 0.07079987, 0.07693369, 0.08301962, 0.08905826,
  0.095050134, 0.100995794, 0.10689577, 0.11275058, 0.118560754,
  0.12432679, 0.13004918, 0.13572845, 0.14136505, 0.1469595,
  0.15251222, 0.1580237, 0.1634944, 0.16892476, 0.17431524,
  0.17966628, 0.1849783, 0.19025174, 0.19548698, 0.20068447,
  0.20584463, 0.21096781, 0.21605444, 0.22110492, 0.2261196,
  0.23109888, 0.23604311, 0.24095272, 0.245828, 0.25066936,
  0.2554771, 0.26025164, 0.26499328, 0.26970237, 0.27437922,
  0.27902418, 0.28363758, 0.28821972, 0.29277095, 0.29729152,
  0.3017818, 0.3062421, 0.31067267, 0.31507385, 0.31944588,
  0.32378912, 0.32810378, 0.3323902, 0.3366486, 0.3408793,
  0.34508255, 0.34925863, 0.35340777, 0.35753027, 0.36162636,
  0.36569634, 0.36974037, 0.37375876, 0.37775174, 0.38171956,
  0.38566244, 0.38958064, 0.39347437, 0.39734384, 0.4011893,
  0.405011, 0.40880907, 0.41258383, 0.41633546, 0.42006415,
  0.42377013, 0.4274536, 0.43111476, 0.43475384, 0.43837097,
  0.44196644, 0.4455404, 0.449093, 0.45262453, 0.45613506,
  0.4596249, 0.46309412, 0.46654293, 0.46997157, 0.47338015,
  0.47676894, 0.48013794, 0.48348752, 0.4868177, 0.49012873,
  0.4934207, 0.49669388, 0.49994832, 0.50318426, 0.50640184,
  0.5096012, 0.51278245, 0.51594585, 0.5190914, 0.5222195,
  0.52533007, 0.52842325, 0.5314993, 0.53455836, 0.5376005,
  0.54062593, 0.5436348, 0.54662704, 0.54960304, 0.55256283,
  0.55550647, 0.5584343, 0.56134623, 0.5642425, 0.56712323,
  0.5699885, 0.5728384, 0.5756732, 0.57849294, 0.5812977,
  0.5840876, 0.5868628, 0.58962345, 0.59236956, 0.59510136,
  0.5978189, 0.6005223, 0.6032116, 0.605887, 0.60854864,
  0.6111966, 0.6138308, 0.61645156, 0.619059, 0.62165314,
  0.624234, 0.62680185, 0.6293567, 0.63189864, 0.6344277,
  0.6369442, 0.63944805, 0.64193934, 0.64441824, 0.64688486,
  0.6493392, 0.6517814, 0.6542115, 0.65662974, 0.65903604,
  0.6614306, 0.6638134, 0.66618466, 0.66854435, 0.6708926,
  0.67322946, 0.67555505, 0.67786944, 0.68017274, 0.68246496,
  0.6847462, 0.6870166, 0.6892762, 0.69152504, 0.6937633,
  0.6959909, 0.69820803, 0.7004148, 0.7026111, 0.7047972,
  0.7069731, 0.7091388, 0.7112945, 0.7134401, 0.7155759,
  0.7177018, 0.7198179, 0.72192425, 0.72402096, 0.726108,
  0.72818565, 0.7302538, 0.73231256, 0.73436195, 0.7364021,
  0.7384331, 0.7404549, 0.7424676]

/-- Modelled from the spec (§4.3): `length_counter.rs` is not under `src/`.
A length counter holds an enabled flag, a counter gating channel audibility,
and a pending load value applied with a one-cycle delay by `reload()`. -/
@[ext]
structure LengthCounter where
  enabled : Bool
  counter : ℕ
  pending : Option ℕ
deriving DecidableEq, Repr

namespace LengthCounter

/-- Modelled from the spec: a fresh, disabled length counter. -/
def new : LengthCounter := ⟨false, 0, none⟩

/-- Modelled from the spec (§4.3): `reload()` applies the deferred load.  A
load on a disabled channel is discarded without changing the counter. -/
def reload (lc : LengthCounter) : LengthCounter :=
  match lc.pending with
  | some v => { lc with pending := none, counter := if lc.enabled then v else lc.counter }
  | none => lc

/-- Modelled from the spec (§4.3): `clock()` decrements toward zero if enabled
and nonzero. -/
def clock (lc : LengthCounter) : LengthCounter :=
  if lc.enabled ∧ lc.counter > 0 then { lc with counter := lc.counter - 1 } else lc

/-- Modelled from the spec (§4.7): disabling a channel via $4015 zeroes its
length counter; enabling only sets the flag. -/
def set_enabled (lc : LengthCounter) (b : Bool) : LengthCounter :=
  if b then { lc with enabled := true } else { lc with enabled := false, counter := 0 }

end LengthCounter

/-- Modelled from the spec (§4.3): the fixed 32-entry length lookup table
(`length_counter.rs` is not under `src/`; these are the canonical values). -/
def LENGTH_TABLE : List ℕ :=
  [10, 254, 20, 2, 40, 4, 80, 6, 160, 8, 60, 10, 14, 12, 26, 14,
   12, 16, 24, 18, 48, 20, 96, 22, 192, 24, 72, 26, 16, 28, 32, 30]

/-- Modelled from the spec (§4.5): the four pulse duty patterns over an
8-step sequence. -/
def DUTY_TABLE : List (List ℕ) :=
  [[0, 1, 0, 0, 0, 0, 0, 0],
   [0, 1, 1, 0, 0, 0, 0, 0],
   [0, 1, 1, 1, 1, 0, 0, 0],
   [1, 0, 0, 1, 1, 1, 1, 1]]

/-- Modelled from the spec (§4.1, §4.5): a waveform channel generator
(`pulse.rs`, `triangle.rs`, `noise.rs` are not under `src/`).  One structure
serves pulse 1, pulse 2, the triangle and the noise channel: a timer (divider
over a period, tracking the last caught-up output cycle in `timer_cycle`), a
waveform position, the envelope (translated from `envelope.rs`), a length
counter, the triangle's linear counter, and the sweep unit (§4.4) with the
pulse-2 `twos_complement` negation asymmetry. -/
@[ext]
structure ChannelGen where
  timer_cycle : ℕ
  timer_counter : ℕ
  timer_period : ℕ
  seq_pos : ℕ
  duty : ℕ
  envelope : Envelope
  length : LengthCounter
  linear : ℕ
  linear_reload_val : ℕ
  linear_control : Bool
  linear_reload : Bool
  sweep_reg : ℕ
  sweep_counter : ℕ
  twos_complement : Bool
  noise_mode : Bool
  silent : Bool
deriving DecidableEq, Repr

namespace ChannelGen

/-- Modelled from the spec: a fresh channel (the flag picks the pulse-2 style
sweep negation). -/
def new (twos : Bool) : ChannelGen where
  timer_cycle := 0
  timer_counter := 0
  timer_period := 0
  seq_pos := 0
  duty := 0
  envelope := Envelope.new
  length := LengthCounter.new
  linear := 0
  linear_reload_val := 0
  linear_control := false
  linear_reload := false
  sweep_reg := 0
  sweep_counter := 0
  twos_complement := twos
  noise_mode := false
  silent := false

/-- Modelled from the spec (§4.5): the channel's current analog level — the
duty-step bit times the envelope output, gated by the length counter and the
user mute. -/
def output (ch : ChannelGen) : ℚ :=
  if ch.silent ∨ ch.length.counter = 0 then 0
  else if (DUTY_TABLE.getD (ch.duty % 4) []).getD (ch.seq_pos % 8) 0 = 1 then
    (ch.envelope.output : ℚ)
  else 0

/-- Modelled from the spec (§4.1): one cycle of the timer divider — reload
from the period and advance the waveform on expiry, else count down. -/
def stepCycle (ch : ChannelGen) : ChannelGen :=
  if ch.timer_counter = 0 then
    { ch with timer_counter := ch.timer_period, seq_pos := ch.seq_pos + 1 }
  else { ch with timer_counter := ch.timer_counter - 1 }

/-- Modelled from the spec (§4.1): step the channel `n` single cycles from
`timer_cycle`, writing the current level into the shared per-cycle output
buffer at `6 * cycle + offset` before each step. -/
def clockOutAux : ℕ → ℕ → ChannelGen → (ℕ → ℚ) → ChannelGen × (ℕ → ℚ)
  | 0, _, ch, buf => (ch, buf)
  | n + 1, offset, ch, buf =>
    let buf := Function.update buf (6 * ch.timer_cycle + offset) ch.output
    let ch := { ch.stepCycle with timer_cycle := ch.timer_cycle + 1 }
    clockOutAux n offset ch buf

/-- Modelled from the spec (§4.1): `clock_to_output(target, outputs)` —
batched advancement to the destination master cycle. -/
def clock_to_output (ch : ChannelGen) (offset target : ℕ) (buf : ℕ → ℚ) :
    ChannelGen × (ℕ → ℚ) :=
  clockOutAux (target - ch.timer_cycle) offset ch buf

/-- Modelled from the spec (§4.2, §4.5): a quarter-frame clock drives the
envelope and the triangle's linear counter. -/
def clock_quarter_frame (ch : ChannelGen) : ChannelGen :=
  let lin := if ch.linear_reload then ch.linear_reload_val
             else if ch.linear > 0 then ch.linear - 1 else 0
  { ch with
    envelope := ch.envelope.clock
    linear := lin
    linear_reload := if ch.linear_control then ch.linear_reload else false }

/-- Modelled from the spec (§4.4): one half-frame step of the sweep unit,
with the one's-complement (pulse 1) versus plain negation (pulse 2)
asymmetry; out-of-range targets leave the stored period unchanged. -/
def sweepStep (ch : ChannelGen) : ChannelGen :=
  let enabled := ch.sweep_reg.testBit 7
  let negate := ch.sweep_reg.testBit 3
  let shift := ch.sweep_reg % 8
  if ch.sweep_counter > 0 then { ch with sweep_counter := ch.sweep_counter - 1 }
  else
    let ch := { ch with sweep_counter := (ch.sweep_reg / 16) % 8 }
    if enabled ∧ shift ≠ 0 then
      let delta := ch.timer_period / 2 ^ shift
      let target :=
        if negate then
          if ch.twos_complement then ch.timer_period - delta
          else ch.timer_period - delta - 1
        else ch.timer_period + delta
      if 8 ≤ target ∧ target ≤ 0x7FF then { ch with timer_period := target } else ch
    else ch

/-- Modelled from the spec (§4.3, §4.4): a half-frame clock drives the length
counter and the sweep. -/
def clock_half_frame (ch : ChannelGen) : ChannelGen :=
  sweepStep { ch with length := ch.length.clock }

/-- Modelled from the spec (§4.2, §4.5): $4000/$4004/$400C control write —
duty bits 6–7 plus the envelope control bits. -/
def write_ctrl (ch : ChannelGen) (val : ℕ) : ChannelGen :=
  { ch with duty := val / 64, envelope := ch.envelope.write_ctrl val }

/-- Modelled from the spec (§4.4): $4001/$4005 sweep write reloads the sweep
divider. -/
def write_sweep (ch : ChannelGen) (val : ℕ) : ChannelGen :=
  { ch with sweep_reg := val % 256, sweep_counter := (val / 16) % 8 }

/-- Modelled from the spec (§4.5): timer low byte write. -/
def write_timer_lo (ch : ChannelGen) (val : ℕ) : ChannelGen :=
  { ch with timer_period := (ch.timer_period / 256) * 256 + val % 256 }

/-- Modelled from the spec (§4.3, §4.5): timer high byte write — the high
period bits, a pending length-counter load from the 5 high bits of `val`, an
envelope reset, and a waveform restart. -/
def write_timer_hi (ch : ChannelGen) (val : ℕ) : ChannelGen :=
  { ch with
    timer_period := ch.timer_period % 256 + (val % 8) * 256
    length := { ch.length with pending := some (LENGTH_TABLE.getD (val / 8 % 32) 0) }
    envelope := { ch.envelope with reset := true }
    seq_pos := 0 }

/-- Modelled from the spec (§4.5): $4008 triangle linear counter write. -/
def write_linear_counter (ch : ChannelGen) (val : ℕ) : ChannelGen :=
  { ch with
    linear_control := val.testBit 7
    linear_reload_val := val % 128
    linear_reload := true }

/-- Modelled from the spec (§4.5): $400E noise timer write — mode flag and
period table index. -/
def write_timer_noise (ch : ChannelGen) (val : ℕ) : ChannelGen :=
  { ch with noise_mode := val.testBit 7, timer_period := val % 16 }

/-- Modelled from the spec (§4.3, §4.5): $400F noise length write. -/
def write_length_noise (ch : ChannelGen) (val : ℕ) : ChannelGen :=
  { ch with
    length := { ch.length with pending := some (LENGTH_TABLE.getD (val / 8 % 32) 0) }
    envelope := { ch.envelope with reset := true } }

/-- Modelled from the spec (§4.7): $4015 enable/disable forwards to the length
counter. -/
def set_enabled (ch : ChannelGen) (b : Bool) : ChannelGen :=
  { ch with length := ch.length.set_enabled b }

/-- Modelled from the spec: reset returns the channel to its power-up state,
keeping only the user mute flag. -/
def reset (ch : ChannelGen) (_kind : ResetKind) : ChannelGen :=
  { new ch.twos_complement with silent := ch.silent }

end ChannelGen

/-- Modelled from the spec (§4.5): the delta-modulation channel (`dmc.rs` is
not under `src/`).  The model keeps the fields the orchestrator reads
(`bytes_remaining`, `irq_pending`, `timer.cycle` as `timer_cycle`) and a
deterministic per-cycle playback: the timer counts down, each expiry while
bytes remain consumes one byte, and exhaustion either loops or requests an
IRQ.  The DMA byte traffic happens outside the clocking claims and is not
represented. -/
@[ext]
structure Dmc where
  timer_cycle : ℕ
  timer_counter : ℕ
  timer_period : ℕ
  level : ℕ
  bytes_remaining : ℕ
  length_load : ℕ
  addr_load : ℕ
  loops : Bool
  irq_enabled : Bool
  irq_pending : Bool
  silent : Bool
deriving DecidableEq, Repr

namespace Dmc

/-- Modelled from the spec: the power-up DMC. -/
def new : Dmc where
  timer_cycle := 0
  timer_counter := 0
  timer_period := 0
  level := 0
  bytes_remaining := 0
  length_load := 0
  addr_load := 0
  loops := false
  irq_enabled := false
  irq_pending := false
  silent := false

/-- Modelled from the spec (§4.5): the DMC output level (0–127), or 0 when
muted. -/
def output (d : Dmc) : ℚ := if d.silent then 0 else (d.level : ℚ)

/-- Modelled from the spec (§4.5): one cycle of DMC playback.  The IRQ flag is
only ever raised here, never cleared. -/
def stepCycle (d : Dmc) : Dmc :=
  if d.timer_counter = 0 then
    if d.bytes_remaining = 0 then { d with timer_counter := d.timer_period }
    else if d.bytes_remaining = 1 then
      if d.loops then
        { d with timer_counter := d.timer_period, bytes_remaining := d.length_load }
      else if d.irq_enabled then
        { d with timer_counter := d.timer_period, bytes_remaining := 0, irq_pending := true }
      else { d with timer_counter := d.timer_period, bytes_remaining := 0 }
    else { d with timer_counter := d.timer_period, bytes_remaining := d.bytes_remaining - 1 }
  else { d with timer_counter := d.timer_counter - 1 }

/-- Modelled from the spec (§4.1): step the DMC `n` single cycles, writing its
level into the shared buffer at channel offset 4. -/
def clockOutAux : ℕ → Dmc → (ℕ → ℚ) → Dmc × (ℕ → ℚ)
  | 0, d, buf => (d, buf)
  | n + 1, d, buf =>
    let buf := Function.update buf (6 * d.timer_cycle + 4) d.output
    let d := { d.stepCycle with timer_cycle := d.timer_cycle + 1 }
    clockOutAux n d buf

/-- Modelled from the spec (§4.1): batched advancement to the target cycle. -/
def clock_to_output (d : Dmc) (target : ℕ) (buf : ℕ → ℚ) : Dmc × (ℕ → ℚ) :=
  clockOutAux (target - d.timer_cycle) d buf

/-- Modelled from the spec (§4.5): $4010 write — IRQ enable, loop flag, rate
index; clearing the IRQ enable acknowledges a pending DMC IRQ. -/
def write_timer (d : Dmc) (val : ℕ) : Dmc :=
  { d with
    irq_enabled := val.testBit 7
    loops := val.testBit 6
    timer_period := val % 16
    irq_pending := if val.testBit 7 then d.irq_pending else false }

/-- Modelled from the spec (§4.5): $4013 write — sample length load value. -/
def write_length (d : Dmc) (val : ℕ) : Dmc :=
  { d with length_load := (val % 256) * 16 + 1 }

/-- Modelled from the spec (§4.5): the level part of the $4011 write (the
caller masks to 7 bits); the retroactive patching of the output buffer done by
the missing source is not represented — the buffer is returned unchanged. -/
def write_output_in (d : Dmc) (val : ℕ) (buf : ℕ → ℚ) : Dmc × (ℕ → ℚ) :=
  ({ d with level := val }, buf)

/-- Modelled from the spec (§4.5): $4012 write — sample start address. -/
def write_addr (d : Dmc) (val : ℕ) : Dmc :=
  { d with addr_load := 0xC000 + (val % 256) * 64 }

/-- Modelled from the spec (§4.7): $4015 bit 4 — disabling zeroes the
byte-remaining counter, enabling restarts an exhausted sample. -/
def set_enabled (d : Dmc) (b : Bool) (_cpu_cycle : ℕ) : Dmc :=
  if b then
    if d.bytes_remaining = 0 then { d with bytes_remaining := d.length_load } else d
  else { d with bytes_remaining := 0 }

/-- Modelled from the spec: reset returns the DMC to its power-up state,
keeping only the user mute flag. -/
def reset (d : Dmc) (_kind : ResetKind) : Dmc :=
  { new with silent := d.silent }

end Dmc

/-- The cheap DMC clocking predicates `Dmc::should_clock` and
`Dmc::irq_pending_in` consulted by `Apu::should_clock`.  Modelled from the
spec: `dmc.rs` is not under `src/` and the spec fixes no formula for them, so
they are carried as parameters — the theorems below hold for every choice. -/
structure DmcHooks where
  shouldClock : Dmc → Bool
  irqPendingIn : Dmc → ℕ → Bool

/-- Modelled from the spec (§6): `Cpu::region_clock_rate` (`cpu.rs` is not
under `src/`) — the region CPU clock rates, as exact rationals. -/
def Cpu.region_clock_rate : NesRegion → ℚ
  | .Ntsc => 1789773
  | .Pal => 1662607
  | .Dendy => 1773448

/-- Modelled from the spec (§3, §4.7): the filter chain (`filter.rs` is not
under `src/`) — a first-order low-pass into a first-order high-pass over
exact rationals; the claims below only need it to be a deterministic state
machine consuming mixed samples. -/
@[ext]
structure FilterChain where
  lp : ℚ
  hp_in : ℚ
  hp_out : ℚ
deriving DecidableEq, Repr

namespace FilterChain

/-- Modelled from the spec: `FilterChain::new(region, sample_rate)`; the model
ignores the parameters. -/
def make (_region : NesRegion) (_sample_rate : ℚ) : FilterChain := ⟨0, 0, 0⟩

/-- Modelled from the spec: consume one mixed sample. -/
def consume (f : FilterChain) (x : ℚ) : FilterChain :=
  let lp := (f.lp + x) / 2
  { lp := lp, hp_in := lp, hp_out := (f.hp_out + lp - f.hp_in) / 2 }

/-- Modelled from the spec: the current filtered output sample. -/
def output (f : FilterChain) : ℚ := f.hp_out

end FilterChain

/-- NES APU state (`apu.rs`, struct `Apu`).  The transient `f32` buffers are
embedded as a `ℕ → ℚ` output buffer (indexed `6 * cycle + channel`, the
flattening the source uses) and a `List ℚ` of produced audio samples. -/
@[ext]
structure Apu where
  frame_counter : FrameCounter
  master_cycle : ℕ
  cpu_cycle : ℕ
  cycle : ℕ
  clock_rate : ℚ
  region : NesRegion
  pulse1 : ChannelGen
  pulse2 : ChannelGen
  triangle : ChannelGen
  noise : ChannelGen
  dmc : Dmc
  filter_chain : FilterChain
  channel_outputs : ℕ → ℚ
  audio_samples : List ℚ
  sample_period : ℚ
  sample_counter : ℚ
  mapper_silenced : Bool
  skip_mixing : Bool
  should_clock : Bool

namespace Apu

/-- `Apu::SAMPLE_RATE`. -/
def SAMPLE_RATE : ℚ := 44100

/-- `Apu::MAX_CHANNEL_COUNT` — 5 APU channels + 1 mapper channel. -/
def MAX_CHANNEL_COUNT : ℕ := 6

/-- `Apu::CYCLE_SIZE`. -/
def CYCLE_SIZE : ℕ := 10000

/-- `Apu::new()` (`NesRegion::default()` is NTSC). -/
def new : Apu :=
  let region := NesRegion.Ntsc
  let clock_rate := Cpu.region_clock_rate region
  let sample_period := clock_rate / SAMPLE_RATE
  { frame_counter := FrameCounter.new region
    master_cycle := 0
    cpu_cycle := 0
    cycle := 0
    clock_rate := clock_rate
    region := region
    pulse1 := ChannelGen.new false
    pulse2 := ChannelGen.new true
    triangle := ChannelGen.new false
    noise := ChannelGen.new false
    dmc := Dmc.new
    filter_chain := FilterChain.make region SAMPLE_RATE
    channel_outputs := fun _ => 0
    audio_samples := []
    sample_period := sample_period
    sample_counter := sample_period
    mapper_silenced := true
    skip_mixing := false
    should_clock := false }

/-- `Apu::add_output` — the mapper expansion-audio channel writes at offset
`Channel::Mapper as usize = 5`. -/
def add_output (s : Apu) (output : ℚ) : Apu :=
  { s with channel_outputs :=
      Function.update s.channel_outputs (s.master_cycle * MAX_CHANNEL_COUNT + 5) output }

/-- The per-chunk mixing computation inside `Apu::process_outputs`
(`apu.rs` lines 160–169): the two non-linear table lookups on the truncated
index sums, plus the mapper output when not silenced.  The `f32`-to-`usize`
casts are embedded as rational floor. -/
def apuMix (mapper_silenced : Bool) (p1 p2 t n d mapper : ℚ) : ℚ :=
  let pulse_idx := Int.toNat ⌊p1 + p2⌋
  let tnd_idx := Int.toNat ⌊3 * t + 2 * n + d⌋
  let apu_output := PULSE_TABLE.getD pulse_idx 0 + TND_TABLE.getD tnd_idx 0
  let mapper_output := if mapper_silenced then 0 else mapper
  apu_output + mapper_output

/-- `Apu::process_outputs()`: mix the first `cycle` chunks of the per-cycle
output buffer into the filter chain, extracting resampled audio samples via
the fractional `sample_counter` accumulator. -/
def process_outputs (s : Apu) : Apu :=
  if s.skip_mixing then s
  else
    (List.range s.cycle).foldl (fun s i =>
      let mixed := apuMix s.mapper_silenced
        (s.channel_outputs (MAX_CHANNEL_COUNT * i))
        (s.channel_outputs (MAX_CHANNEL_COUNT * i + 1))
        (s.channel_outputs (MAX_CHANNEL_COUNT * i + 2))
        (s.channel_outputs (MAX_CHANNEL_COUNT * i + 3))
        (s.channel_outputs (MAX_CHANNEL_COUNT * i + 4))
        (s.channel_outputs (MAX_CHANNEL_COUNT * i + 5))
      let s := { s with filter_chain := s.filter_chain.consume mixed }
      let s := { s with sample_counter := s.sample_counter - 1 }
      if s.sample_counter ≤ 1 then
        { s with
          audio_samples := s.audio_samples ++ [s.filter_chain.output]
          sample_counter := s.sample_counter + s.sample_period }
      else s) s

/-- Apply one `FrameType` callback event to the four waveform channels, as the
closure in `ClockTo for Apu::clock_to` does (`apu.rs` lines 298–312). -/
def applyFrameEvent (s : Apu) : FrameType → Apu
  | .Quarter =>
    { s with
      pulse1 := s.pulse1.clock_quarter_frame
      pulse2 := s.pulse2.clock_quarter_frame
      triangle := s.triangle.clock_quarter_frame
      noise := s.noise.clock_quarter_frame }
  | .Half =>
    { s with
      pulse1 := s.pulse1.clock_half_frame
      pulse2 := s.pulse2.clock_half_frame
      triangle := s.triangle.clock_half_frame
      noise := s.noise.clock_half_frame }
  | .None => s

/-- One iteration of the `while cycles > 0` loop body of `Apu::clock_to`:
frame-counter advance with its callback events, the four length-counter
reloads, and the per-channel batched output clocking to the new cycle. -/
def clockUpdate (s : Apu) (n : ℕ) : Apu × ℕ :=
  let r := s.frame_counter.clock_to_with n
  let s := { s with frame_counter := r.fc }
  let s := r.events.foldl applyFrameEvent s
  let s := { s with
    pulse1 := { s.pulse1 with length := s.pulse1.length.reload }
    pulse2 := { s.pulse2 with length := s.pulse2.length.reload }
    triangle := { s.triangle with length := s.triangle.length.reload }
    noise := { s.noise with length := s.noise.length.reload } }
  let newCycle := s.cycle + r.consumed
  let cp1 := s.pulse1.clock_to_output 0 newCycle s.channel_outputs
  let cp2 := s.pulse2.clock_to_output 1 newCycle cp1.2
  let ctr := s.triangle.clock_to_output 2 newCycle cp2.2
  let cno := s.noise.clock_to_output 3 newCycle ctr.2
  let cdm := s.dmc.clock_to_output newCycle cno.2
  ({ s with
      cycle := newCycle
      pulse1 := cp1.1
      pulse2 := cp2.1
      triangle := ctr.1
      noise := cno.1
      dmc := cdm.1
      channel_outputs := cdm.2 }, r.remaining)

/-- The `while cycles > 0` loop of `Apu::clock_to`, with explicit fuel.  In
every state this development ever clocks, each iteration consumes at least one
cycle, so fuel equal to the initial cycle count is sufficient and the bailout
branch is never taken. -/
def clockToGo : ℕ → Apu → ℕ → Apu
  | _, s, 0 => s
  | 0, s, _ + 1 => s
  | fuel + 1, s, n + 1 =>
    clockToGo fuel (clockUpdate s (n + 1)).1 (clockUpdate s (n + 1)).2

/-- `ClockTo for Apu::clock_to(cycle)` — the authoritative cycle-accurate
advance. -/
def clock_to (s : Apu) (cycle : ℕ) : Apu :=
  let s := { s with master_cycle := cycle }
  clockToGo (cycle - s.cycle) s (cycle - s.cycle)

/-- `Apu::clock_flush()`: catch up, mix, and rewind the cycle bookkeeping to
zero (the returned cycle count is dropped; only the state matters here). -/
def clock_flush (s : Apu) : Apu :=
  let s := s.clock_to s.master_cycle
  let s := s.process_outputs
  { s with
    master_cycle := 0
    cycle := 0
    pulse1 := { s.pulse1 with timer_cycle := 0 }
    pulse2 := { s.pulse2 with timer_cycle := 0 }
    triangle := { s.triangle with timer_cycle := 0 }
    noise := { s.noise with timer_cycle := 0 }
    dmc := { s.dmc with timer_cycle := 0 } }

/-- `Apu::should_clock()` — the cheap lazy-clocking predicate; it consumes the
`should_clock` flag when that short-circuit fires, so it returns the updated
state alongside the answer. -/
def should_clock_fn (H : DmcHooks) (s : Apu) : Bool × Apu :=
  if H.shouldClock s.dmc || s.should_clock then
    (true, { s with should_clock := false })
  else
    let cycles := s.master_cycle - s.cycle
    (s.frame_counter.should_clock cycles || H.irqPendingIn s.dmc cycles, s)

/-- `Apu::clock_lazy()` — the per-CPU-cycle driver: bump the cycle counters,
flush on the batch boundary, otherwise pay a full `clock_to` only when
`should_clock()` fires. -/
def clock_lazy (H : DmcHooks) (s : Apu) : Apu :=
  let s := { s with master_cycle := s.master_cycle + 1, cpu_cycle := s.cpu_cycle + 1 }
  if s.master_cycle = CYCLE_SIZE - 1 then s.clock_flush
  else
    let r := should_clock_fn H s
    if r.1 then r.2.clock_to r.2.master_cycle else r.2

/-- `ApuRegisters::write_ctrl` ($4000/$4004/$400C).  The source panics on the
other channels (a bus-dispatch programming error, unreachable per spec §7);
those arms are embedded as the identity. -/
def write_ctrl (s : Apu) (channel : Channel) (val : ℕ) : Apu :=
  let s := s.clock_to s.master_cycle
  let s :=
    match channel with
    | .Pulse1 => { s with pulse1 := s.pulse1.write_ctrl val }
    | .Pulse2 => { s with pulse2 := s.pulse2.write_ctrl val }
    | .Noise => { s with noise := s.noise.write_ctrl val }
    | _ => s
  { s with should_clock :=
      s.pulse1.length.enabled || s.pulse2.length.enabled || s.noise.length.enabled }

/-- `ApuRegisters::write_sweep` ($4001/$4005); invalid channels embedded as
the identity in place of the source's panic. -/
def write_sweep (s : Apu) (channel : Channel) (val : ℕ) : Apu :=
  let s := s.clock_to s.master_cycle
  match channel with
  | .Pulse1 => { s with pulse1 := s.pulse1.write_sweep val }
  | .Pulse2 => { s with pulse2 := s.pulse2.write_sweep val }
  | _ => s

/-- `ApuRegisters::write_timer_lo` ($4002/$4006/$400A/$400E/$4010). -/
def write_timer_lo (s : Apu) (channel : Channel) (val : ℕ) : Apu :=
  let s := s.clock_to s.master_cycle
  match channel with
  | .Pulse1 => { s with pulse1 := s.pulse1.write_timer_lo val }
  | .Pulse2 => { s with pulse2 := s.pulse2.write_timer_lo val }
  | .Triangle => { s with triangle := s.triangle.write_timer_lo val }
  | .Noise => { s with noise := s.noise.write_timer_noise val }
  | .Dmc => { s with dmc := s.dmc.write_timer val }
  | .Mapper => s

/-- `ApuRegisters::write_timer_hi` ($4003/$4007/$400B). -/
def write_timer_hi (s : Apu) (channel : Channel) (val : ℕ) : Apu :=
  let s := s.clock_to s.master_cycle
  let s :=
    match channel with
    | .Pulse1 => { s with pulse1 := s.pulse1.write_timer_hi val }
    | .Pulse2 => { s with pulse2 := s.pulse2.write_timer_hi val }
    | .Triangle => { s with triangle := s.triangle.write_timer_hi val }
    | _ => s
  { s with should_clock :=
      s.pulse1.length.enabled || s.pulse2.length.enabled || s.triangle.length.enabled }

/-- `ApuRegisters::write_linear_counter` ($4008). -/
def write_linear_counter (s : Apu) (val : ℕ) : Apu :=
  let s := s.clock_to s.master_cycle
  let s := { s with triangle := s.triangle.write_linear_counter val }
  { s with should_clock := s.triangle.length.enabled }

/-- `ApuRegisters::write_length` ($400F/$4013). -/
def write_length (s : Apu) (channel : Channel) (val : ℕ) : Apu :=
  let s := s.clock_to s.master_cycle
  let s :=
    match channel with
    | .Noise => { s with noise := s.noise.write_length_noise val }
    | .Dmc => { s with dmc := s.dmc.write_length val }
    | _ => s
  { s with should_clock := s.noise.length.enabled }

/-- `ApuRegisters::write_dmc_output` ($4011): only 7 bits are used. -/
def write_dmc_output (s : Apu) (val : ℕ) : Apu :=
  let s := s.clock_to s.master_cycle
  let r := s.dmc.write_output_in (val % 128) s.channel_outputs
  { s with dmc := r.1, channel_outputs := r.2 }

/-- `ApuRegisters::write_dmc_addr` ($4012). -/
def write_dmc_addr (s : Apu) (val : ℕ) : Apu :=
  let s := s.clock_to s.master_cycle
  { s with dmc := s.dmc.write_addr val }

/-- `ApuRegisters::peek_status()` — read APU status without side effects
($4015). -/
def peek_status (s : Apu) : ℕ :=
  let status := 0x00
  let status := if s.pulse1.length.counter > 0 then status ||| 0x01 else status
  let status := if s.pulse2.length.counter > 0 then status ||| 0x02 else status
  let status := if s.triangle.length.counter > 0 then status ||| 0x04 else status
  let status := if s.noise.length.counter > 0 then status ||| 0x08 else status
  let status := if s.dmc.bytes_remaining > 0 then status ||| 0x10 else status
  let status := if s.frame_counter.irq_pending then status ||| 0x40 else status
  let status := if s.dmc.irq_pending then status ||| 0x80 else status
  status

/-- `ApuRegisters::read_status()` ($4015): catch up, peek, then clear the
frame-counter IRQ flag. -/
def read_status (s : Apu) : ℕ × Apu :=
  let s := s.clock_to s.master_cycle
  (s.peek_status, { s with frame_counter := { s.frame_counter with irq_pending := false } })

/-- `ApuRegisters::write_status` ($4015). -/
def write_status (s : Apu) (val : ℕ) : Apu :=
  let s := s.clock_to s.master_cycle
  { s with
    pulse1 := s.pulse1.set_enabled (val % 2 = 1)
    pulse2 := s.pulse2.set_enabled (val / 2 % 2 = 1)
    triangle := s.triangle.set_enabled (val / 4 % 2 = 1)
    noise := s.noise.set_enabled (val / 8 % 2 = 1)
    dmc := s.dmc.set_enabled (val / 16 % 2 = 1) s.cpu_cycle }

/-- `ApuRegisters::write_frame_counter` ($4017). -/
def write_frame_counter (s : Apu) (val : ℕ) : Apu :=
  let s := s.clock_to s.master_cycle
  { s with frame_counter := s.frame_counter.write val s.master_cycle }

/-- `Reset for Apu::reset` — note the source zeroes `master_cycle` but leaves
`cycle` untouched. -/
def reset (s : Apu) (kind : ResetKind) : Apu :=
  { s with
    master_cycle := 0
    should_clock := false
    frame_counter := s.frame_counter.reset kind
    pulse1 := s.pulse1.reset kind
    pulse2 := s.pulse2.reset kind
    triangle := s.triangle.reset kind
    noise := s.noise.reset kind
    dmc := s.dmc.reset kind }

end Apu

/-- One external stimulus for the APU: one CPU cycle of clocking, or one of
the `ApuRegisters` writes (the register-write schedule of the lazy-clocking
equivalence property). -/
inductive ApuAction
  | clock
  | ctrl (c : Channel) (v : ℕ)
  | sweep (c : Channel) (v : ℕ)
  | timerLo (c : Channel) (v : ℕ)
  | timerHi (c : Channel) (v : ℕ)
  | linear (v : ℕ)
  | length (c : Channel) (v : ℕ)
  | dmcOutput (v : ℕ)
  | dmcAddr (v : ℕ)
  | status (v : ℕ)
  | frame (v : ℕ)

namespace Apu

/-- Dispatch one register write to the corresponding `ApuRegisters` handler
(`ApuAction.clock` is handled by the drivers below and is the identity
here). -/
def applyWrite (s : Apu) : ApuAction → Apu
  | .clock => s
  | .ctrl c v => s.write_ctrl c v
  | .sweep c v => s.write_sweep c v
  | .timerLo c v => s.write_timer_lo c v
  | .timerHi c v => s.write_timer_hi c v
  | .linear v => s.write_linear_counter v
  | .length c v => s.write_length c v
  | .dmcOutput v => s.write_dmc_output v
  | .dmcAddr v => s.write_dmc_addr v
  | .status v => s.write_status v
  | .frame v => s.write_frame_counter v

/-- The always-clock reference driver for one CPU cycle: bump the cycle
counters and pay a full `clock_to` catch-up unconditionally (flushing on the
batch boundary exactly as `clock_lazy` does). -/
def clock_eager (s : Apu) : Apu :=
  let s := { s with master_cycle := s.master_cycle + 1, cpu_cycle := s.cpu_cycle + 1 }
  if s.master_cycle = CYCLE_SIZE - 1 then s.clock_flush
  else s.clock_to s.master_cycle

/-- Run a schedule on the lazy driver: `clock_lazy()` per cycle, register
writes applied at their scheduled positions. -/
def lazyRun (H : DmcHooks) (acts : List ApuAction) : Apu :=
  acts.foldl (fun s a => match a with
    | .clock => s.clock_lazy H
    | w => s.applyWrite w) Apu.new

/-- Run the same schedule on the always-clock reference driver: `clock_to(c)`
for every single intervening cycle `c`. -/
def eagerRun (acts : List ApuAction) : Apu :=
  acts.foldl (fun s a => match a with
    | .clock => s.clock_eager
    | w => s.applyWrite w) Apu.new

/-- One `peek_status()` call as the bus sees it: the status byte plus the
(unchanged, since the source takes `&self`) APU state. -/
def peekCall (s : Apu) : ℕ × Apu := (s.peek_status, s)

/-- `n` successive `peek_status()` calls, collecting the returned bytes and
threading the state through every call. -/
def peekCalls : ℕ → Apu → List ℕ × Apu
  | 0, s => ([], s)
  | n + 1, s =>
    ((peekCall s).1 :: (peekCalls n (peekCall s).2).1, (peekCalls n (peekCall s).2).2)

end Apu

namespace FrameCounter

/-- Drive a frame counter one cycle at a time for `n` cycles — the invocation
pattern the APU uses while a $4017 write is pending (`should_clock` holds,
so `clock_to_with` runs once per cycle). -/
def clockCycles (fc : FrameCounter) : ℕ → FrameCounter
  | 0 => fc
  | n + 1 => clockCycles (fc.clock_to_with 1).fc n

end FrameCounter

/-- A frame-counter state built by source operations from `FrameCounter.new`:
clock an NTSC counter to the step-3 boundary at cycle 29828 (where the
4-step-mode IRQ flag is raised), then write $80 to $4017 on an even cycle and
let the write's 3-cycle delay elapse.  The pending write switches the mode to
5-step, but nothing clears the already-raised IRQ flag. -/
def c4State : FrameCounter :=
  let fc := FrameCounter.new .Ntsc
  let r1 := fc.clock_to_with 29828
  let r2 := r1.fc.clock_to_with r1.remaining
  let r3 := r2.fc.clock_to_with r2.remaining
  let r4 := r3.fc.clock_to_with r3.remaining
  (r4.fc.write 0x80 0).clockCycles 3

/-- An APU state with `cycle > 0`, built by source operations from
`Apu.new`: one lazy clock (no catch-up fires) followed by a $4015 write,
whose handler catches channel state up to the current master cycle. -/
def c8State : Apu :=
  ((Apu.new.clock_lazy ⟨fun _ => false, fun _ _ => false⟩).write_status 0x00)

/-- The APU state with the `should_clock` hint flag cleared: the lazy and
eager drivers agree on everything except this purely-heuristic flag (the
eager driver never consumes it), so states are compared modulo it. -/
def Apu.stripFlag (s : Apu) : Apu := { s with should_clock := false }

/-- The explicit effect of a `clock_to` catch-up that stays strictly inside
the current frame-counter segment (no pending write, no block, no boundary):
the frame counter just accumulates the span, the length counters reload, and
every channel is stepped cycle-by-cycle to the target writing its outputs. -/
def Apu.spanTo (s : Apu) (t : ℕ) : Apu :=
  let p1 := { s.pulse1 with length := s.pulse1.length.reload }
  let p2 := { s.pulse2 with length := s.pulse2.length.reload }
  let tr := { s.triangle with length := s.triangle.length.reload }
  let no := { s.noise with length := s.noise.length.reload }
  let c1 := p1.clock_to_output 0 t s.channel_outputs
  let c2 := p2.clock_to_output 1 t c1.2
  let c3 := tr.clock_to_output 2 t c2.2
  let c4 := no.clock_to_output 3 t c3.2
  let c5 := s.dmc.clock_to_output t c4.2
  { s with
    master_cycle := t
    cycle := t
    frame_counter :=
      { s.frame_counter with cycle := s.frame_counter.cycle + (t - s.cycle) }
    pulse1 := c1.1
    pulse2 := c2.1
    triangle := c3.1
    noise := c4.1
    dmc := c5.1
    channel_outputs := c5.2 }

/-- The five non-mapper channels' projected analog level after `j` further
single-cycle steps from a state `s` about to be span-clocked (the length
counters reloaded first, as `clock_to` does before the channel catch-up);
`r` selects the channel slot in the flattened output buffer. -/
def Apu.chanOut (s : Apu) (r j : ℕ) : ℚ :=
  if r = 0 then
    (ChannelGen.stepCycle^[j] ({ s.pulse1 with length := s.pulse1.length.reload })).output
  else if r = 1 then
    (ChannelGen.stepCycle^[j] ({ s.pulse2 with length := s.pulse2.length.reload })).output
  else if r = 2 then
    (ChannelGen.stepCycle^[j] ({ s.triangle with length := s.triangle.length.reload })).output
  else if r = 3 then
    (ChannelGen.stepCycle^[j] ({ s.noise with length := s.noise.length.reload })).output
  else (Dmc.stepCycle^[j] s.dmc).output

/-- Frame-counter well-formedness in this development: the NTSC table is
installed (the runs never change region), the step index is in range, and the
accumulated cycle is strictly below the current step threshold.  Every state
the runs reach satisfies it, and it guarantees that each `clock_to` loop
iteration consumes at least one cycle. -/
def FrameCounter.Wf (fc : FrameCounter) : Prop :=
  fc.step_cycles = FrameCounter.STEP_CYCLES_NTSC ∧ fc.step < 6 ∧ fc.cycle < fc.threshold

/-- The channels are caught up exactly to the APU's `cycle` bookkeeping. -/
def Apu.Align (s : Apu) : Prop :=
  s.pulse1.timer_cycle = s.cycle ∧ s.pulse2.timer_cycle = s.cycle ∧
  s.triangle.timer_cycle = s.cycle ∧ s.noise.timer_cycle = s.cycle ∧
  s.dmc.timer_cycle = s.cycle

/-- The lazy driver's outstanding span stays strictly inside the current
frame-counter segment with one cycle of margin — exactly what a false
`should_clock()` answer guarantees (its threshold test uses
`step_cycles[...] - 1`). -/
def Apu.Margin (s : Apu) : Prop :=
  s.cycle < s.master_cycle →
    (s.frame_counter.write_buffer = none ∧ s.frame_counter.block_counter = 0 ∧
     s.frame_counter.cycle + (s.master_cycle - s.cycle) + 1 < s.frame_counter.threshold)

/-- The simulation relation between the always-clock reference state `E` and
the lazily-clocked state `L`: same master cycle, `E` caught up, and `E` equal
(modulo the `should_clock` hint flag) to `L` fully caught up; `L` carries the
margin, alignment and well-formedness bookkeeping. -/
def Apu.Inv (E L : Apu) : Prop :=
  E.cycle = E.master_cycle ∧
  L.cycle ≤ L.master_cycle ∧
  E.master_cycle = L.master_cycle ∧
  Apu.stripFlag E = Apu.stripFlag (L.clock_to L.master_cycle) ∧
  L.frame_counter.Wf ∧ L.Align ∧ L.Margin

/-- C2 counterexample: the claim says NTSC, PAL and Dendy each select a
distinct step-cycle table, but `FrameCounter::step_cycles` maps NTSC and
Dendy to the very same `STEP_CYCLES_NTSC` table. -/
theorem C2_counterexample :
    FrameCounter.stepCyclesOf NesRegion.Ntsc = FrameCounter.stepCyclesOf NesRegion.Dendy :=
  rfl

/-- C2 (amended): the step-cycle schedule is region-dependent, but only PAL
gets a distinct table — NTSC and Dendy share `STEP_CYCLES_NTSC`, and the PAL
table differs from it. -/
theorem C2_step_cycle_tables :
    FrameCounter.stepCyclesOf NesRegion.Ntsc = FrameCounter.stepCyclesOf NesRegion.Dendy ∧
    FrameCounter.stepCyclesOf NesRegion.Pal ≠ FrameCounter.stepCyclesOf NesRegion.Ntsc ∧
    FrameCounter.stepCyclesOf NesRegion.Pal ≠ FrameCounter.stepCyclesOf NesRegion.Dendy := by
  refine ⟨rfl, ?_, ?_⟩ <;> decide

/-- C10: `Channel::try_from` maps 0–4 to `Pulse1`, `Pulse2`, `Triangle`,
`Noise`, `Dmc`, fails with `ParseChannelError` on every input ≥ 5, and in
particular can never produce the `Mapper` variant. -/
theorem C10_channel_try_from :
    Channel.try_from 0 = .ok .Pulse1 ∧
    Channel.try_from 1 = .ok .Pulse2 ∧
    Channel.try_from 2 = .ok .Triangle ∧
    Channel.try_from 3 = .ok .Noise ∧
    Channel.try_from 4 = .ok .Dmc ∧
    (∀ n : ℕ, 5 ≤ n → Channel.try_from n = .error ⟨⟩) ∧
    (∀ (n : ℕ) (c : Channel), Channel.try_from n = .ok c → c ≠ .Mapper) := by
  refine ⟨rfl, rfl, rfl, rfl, rfl, ?_, ?_⟩
  · intro n hn
    obtain ⟨m, rfl⟩ : ∃ m, n = m + 5 := ⟨n - 5, by omega⟩
    rfl
  · intro n c h
    rcases n with _ | _ | _ | _ | _ | n <;>
      simp only [Channel.try_from, Except.ok.injEq] at h <;>
      first
        | (subst h; decide)
        | exact absurd h (by simp [Channel.try_from])

/-- C10 witness: the parse theorem applied at the concrete inputs 7 (a
too-large index) and 0. -/
theorem C10_witness :
    Channel.try_from 7 = .error ⟨⟩ ∧ Channel.Pulse1 ≠ Channel.Mapper :=
  ⟨C10_channel_try_from.2.2.2.2.2.1 7 (by omega),
   C10_channel_try_from.2.2.2.2.2.2 0 Channel.Pulse1 rfl⟩

/-- C9: `Envelope::clock` — with the reset flag set it reloads the decay
volume to 15, clears the flag and reloads the divider; otherwise it counts
the divider down (reloading it from the constant-volume field on expiry), and
on expiry decrements the decay volume toward 0, wrapping back to 15 only when
the loop flag is set. -/
theorem C9_envelope_clock (e : Envelope) :
    (e.reset = true →
      e.clock = { e with reset := false, volume := 15, counter := e.constant_volume }) ∧
    (e.reset = false → e.counter ≠ 0 →
      e.clock = { e with counter := e.counter - 1 }) ∧
    (e.reset = false → e.counter = 0 →
      e.clock.counter = e.constant_volume ∧
      e.clock.reset = false ∧
      (e.volume ≠ 0 → e.clock.volume = e.volume - 1) ∧
      (e.volume = 0 → e.loops = true → e.clock.volume = 15) ∧
      (e.volume = 0 → e.loops = false → e.clock.volume = 0)) := by
  refine ⟨?_, ?_, ?_⟩ <;> intro h
  · simp [Envelope.clock, h]
  · intro hc
    simp [Envelope.clock, h, hc]
  · intro hc
    refine ⟨?_, ?_, ?_, ?_, ?_⟩
    · simp [Envelope.clock, h, hc]
    · simp [Envelope.clock, h, hc]
    · intro h1
      simp [Envelope.clock, h, hc, h1, Nat.pos_of_ne_zero]
    · intro h1 h2
      simp [Envelope.clock, h, hc, h1, h2]
    · intro h1 h2
      simp [Envelope.clock, h, hc, h1, h2]

/-- C9 witness: the envelope clock theorem applied to a concrete looping
envelope with an expired divider and zero volume, which wraps back to 15. -/
theorem C9_witness :
    (Envelope.clock ⟨true, true, false, 0, 7, 0⟩).volume = 15 :=
  ((C9_envelope_clock ⟨true, true, false, 0, 7, 0⟩).2.2 rfl rfl).2.2.2.1 rfl rfl

/-- C6: the per-chunk mixed sample computed by `process_outputs` on integer
channel levels is exactly `PULSE_TABLE[pulse1 + pulse2] +
TND_TABLE[3*triangle + 2*noise + dmc]`, plus the mapper output when the
mapper is not silenced and 0 when it is. -/
theorem C6_mixing (p1 p2 t n d : ℕ) (mapper : ℚ) (sil : Bool) :
    Apu.apuMix sil (p1 : ℚ) (p2 : ℚ) (t : ℚ) (n : ℚ) (d : ℚ) mapper =
      PULSE_TABLE.getD (p1 + p2) 0 + TND_TABLE.getD (3 * t + 2 * n + d) 0 +
        (if sil then 0 else mapper) := by
  have h1 : ((p1 : ℚ) + (p2 : ℚ)) = ((p1 + p2 : ℕ) : ℚ) := by push_cast; ring
  have h2 : (3 * (t : ℚ) + 2 * (n : ℚ) + (d : ℚ)) = ((3 * t + 2 * n + d : ℕ) : ℚ) := by
    push_cast; ring
  simp only [Apu.apuMix, h1, h2, Int.floor_natCast, Int.toNat_natCast]

/-- C7: under the documented per-channel level ranges the pulse index never
exceeds 30 and the TND index never exceeds 202, so both `process_outputs`
lookups stay inside the 31-entry `PULSE_TABLE` and the 203-entry
`TND_TABLE`. -/
theorem C7_table_bounds (p1 p2 t n d : ℕ)
    (hp1 : p1 ≤ 15) (hp2 : p2 ≤ 15) (ht : t ≤ 15) (hn : n ≤ 15) (hd : d ≤ 127) :
    p1 + p2 ≤ 30 ∧ 3 * t + 2 * n + d ≤ 202 ∧
    PULSE_TABLE.length = 31 ∧ TND_TABLE.length = 203 ∧
    p1 + p2 < PULSE_TABLE.length ∧ 3 * t + 2 * n + d < TND_TABLE.length := by
  have hl1 : PULSE_TABLE.length = 31 := rfl
  have hl2 : TND_TABLE.length = 203 := rfl
  refine ⟨by omega, by omega, hl1, hl2, ?_, ?_⟩ <;> omega

/-- C7 witness: the bound theorem applied at the extreme levels
(15, 15, 15, 15, 127). -/
theorem C7_witness :
    15 + 15 ≤ 30 ∧ 3 * 15 + 2 * 15 + 127 ≤ 202 ∧
    PULSE_TABLE.length = 31 ∧ TND_TABLE.length = 203 ∧
    15 + 15 < PULSE_TABLE.length ∧ 3 * 15 + 2 * 15 + 127 < TND_TABLE.length :=
  C7_table_bounds 15 15 15 15 127 (by omega) (by omega) (by omega) (by omega) (by omega)

namespace FrameCounter

/-- The step-boundary phase of `clock_to_with` never touches the pending
$4017 write, its delay, the mode, or the IRQ-inhibit flag. -/
theorem stepPhase_pending (fc : FrameCounter) (c : ℕ) :
    (stepPhase fc c).fc.write_buffer = fc.write_buffer ∧
    (stepPhase fc c).fc.write_delay = fc.write_delay ∧
    (stepPhase fc c).fc.mode = fc.mode ∧
    (stepPhase fc c).fc.inhibit_irq = fc.inhibit_irq := by
  simp [stepPhase, apply_ite StepResult.fc, apply_ite FrameCounter.write_buffer,
    apply_ite FrameCounter.write_delay, apply_ite FrameCounter.mode,
    apply_ite FrameCounter.inhibit_irq]

/-- The step-boundary phase raises the IRQ flag only from a 4-step mode,
step ≥ 3, uninhibited state. -/
theorem stepPhase_irq (fc : FrameCounter) (c : ℕ) :
    (stepPhase fc c).fc.irq_pending = true →
    fc.irq_pending = true ∨
      (fc.mode = Mode.Step4 ∧ 3 ≤ fc.step ∧ fc.inhibit_irq = false) := by
  simp only [stepPhase, apply_ite StepResult.fc, apply_ite FrameCounter.irq_pending]
  split_ifs <;> intro hI <;> simp_all

/-- Below the step threshold, the step-boundary phase just accumulates the
cycles, consuming all of them, with no events. -/
theorem stepPhase_lt (fc : FrameCounter) (c : ℕ) (h : fc.cycle + c < fc.threshold) :
    stepPhase fc c = ⟨{ fc with cycle := fc.cycle + c }, c, 0, []⟩ := by
  unfold stepPhase
  rw [if_neg (by omega)]

/-- With no pending write the write phase is the identity. -/
theorem writePhase_none (r : StepResult) (hb : r.fc.write_buffer = none) :
    writePhase r = r := by
  unfold writePhase
  rw [hb]

/-- With a pending write whose delay has at least two invocations to go, the
write phase only counts the delay down. -/
theorem writePhase_delay_ge2 (r : StepResult) (v d : ℕ) (hb : r.fc.write_buffer = some v)
    (hd : r.fc.write_delay = d) (h2 : 2 ≤ d) :
    writePhase r = { r with fc := { r.fc with write_delay := d - 1 } } := by
  unfold writePhase
  rw [hb]
  have hne : ¬(d - 1 = 0) := by omega
  simp [hd, hne]

/-- Applying a pending write with bit 7 set: the mode becomes 5-step, step
and cycle reset, and one immediate half-frame event fires exactly when the
block counter is clear. -/
theorem writePhase_apply_bit7 (r : StepResult) (v : ℕ) (hb : r.fc.write_buffer = some v)
    (hd : r.fc.write_delay = 1) (h7 : v.testBit 7 = true) :
    writePhase r =
      if r.fc.block_counter = 0 then
        { r with
          fc := { r.fc with
            write_delay := 0
            mode := Mode.Step5
            step := 0
            cycle := 0
            write_buffer := none
            block_counter := 2 }
          events := r.events ++ [FrameType.Half] }
      else
        { r with
          fc := { r.fc with
            write_delay := 0
            mode := Mode.Step5
            step := 0
            cycle := 0
            write_buffer := none } } := by
  unfold writePhase
  rw [hb]
  simp only [hd, Nat.sub_self]
  split_ifs <;> simp_all

/-- Applying a pending write with bit 7 clear: the mode becomes 4-step, step
and cycle reset, and no immediate event fires. -/
theorem writePhase_apply_bit7_false (r : StepResult) (v : ℕ)
    (hb : r.fc.write_buffer = some v)
    (hd : r.fc.write_delay = 1) (h7 : v.testBit 7 = false) :
    writePhase r =
      { r with
        fc := { r.fc with
          write_delay := 0
          mode := Mode.Step4
          step := 0
          cycle := 0
          write_buffer := none } } := by
  unfold writePhase
  rw [hb]
  simp [hd, h7]

/-- The block phase is exactly a saturating decrement of the block counter. -/
theorem blockPhase_eq (r : StepResult) :
    blockPhase r = { r with fc := { r.fc with block_counter := r.fc.block_counter - 1 } } := by
  unfold blockPhase
  split_ifs with h
  · rfl
  · have h0 : r.fc.block_counter = 0 := by omega
    rcases r with ⟨fc, c1, c2, ev⟩
    rcases fc
    simp_all

/-- The write phase never changes the IRQ flag. -/
theorem writePhase_irq (r : StepResult) :
    (writePhase r).fc.irq_pending = r.fc.irq_pending := by
  unfold writePhase
  rcases h : r.fc.write_buffer with _ | v <;> simp only [h]
  split_ifs <;> simp

/-- The block phase never changes the IRQ flag. -/
theorem blockPhase_irq (r : StepResult) :
    (blockPhase r).fc.irq_pending = r.fc.irq_pending := by
  rw [blockPhase_eq]

end FrameCounter

/-- C3: a $4017 write is latched with a region-independent delay of 3 cycles
when written at an even master cycle and 4 when odd, leaving the counter's
mode, step and cycle untouched until the delay (counted down once per
invocation; while a write is pending `should_clock` holds, so the APU clocks
the counter exactly once per cycle) expires; on expiry the buffered mode is
installed, step and cycle reset to 0, and when the new mode is 5-step and the
block counter is zero exactly one half-frame clock callback fires
immediately. -/
theorem C3_frame_counter_write_delay :
    ∀ (fc : FrameCounter) (val m : ℕ),
      ((fc.write val m).write_buffer = some val ∧
       (fc.write val m).write_delay = (if m % 2 = 1 then 4 else 3) ∧
       (fc.write val m).step = fc.step ∧
       (fc.write val m).cycle = fc.cycle ∧
       (fc.write val m).mode = fc.mode) ∧
      (∀ d, 2 ≤ d → fc.write_buffer = some val → fc.write_delay = d →
        ((fc.clock_to_with 1).fc.write_buffer = some val ∧
         (fc.clock_to_with 1).fc.write_delay = d - 1 ∧
         (fc.clock_to_with 1).fc.mode = fc.mode)) ∧
      (fc.write_buffer = some val → fc.write_delay = 1 →
        ((fc.clock_to_with 1).fc.write_buffer = none ∧
         (fc.clock_to_with 1).fc.mode = (if val.testBit 7 then Mode.Step5 else Mode.Step4) ∧
         (fc.clock_to_with 1).fc.step = 0 ∧
         (fc.clock_to_with 1).fc.cycle = 0)) ∧
      (fc.write_buffer = some val → fc.write_delay = 1 → val.testBit 7 = true →
        fc.block_counter = 0 → fc.cycle + 1 < fc.threshold →
        (fc.clock_to_with 1).events = [FrameType.Half]) := by
  intro fc val m
  refine ⟨?_, ?_, ?_, ?_⟩
  · simp only [FrameCounter.write, apply_ite FrameCounter.write_buffer,
      apply_ite FrameCounter.write_delay, apply_ite FrameCounter.step,
      apply_ite FrameCounter.cycle, apply_ite FrameCounter.mode]
    simp
  · intro d h2 hb hd
    have hp := FrameCounter.stepPhase_pending fc 1
    unfold FrameCounter.clock_to_with
    rw [FrameCounter.writePhase_delay_ge2 (FrameCounter.stepPhase fc 1) val d
        (by rw [hp.1, hb]) (by rw [hp.2.1, hd]) h2, FrameCounter.blockPhase_eq]
    simp [hp.1, hp.2.1, hp.2.2.1, hb]
  · intro hb hd
    have hp := FrameCounter.stepPhase_pending fc 1
    cases h7 : val.testBit 7 with
    | false =>
      unfold FrameCounter.clock_to_with
      rw [FrameCounter.writePhase_apply_bit7_false (FrameCounter.stepPhase fc 1) val
          (by rw [hp.1, hb]) (by rw [hp.2.1, hd]) h7, FrameCounter.blockPhase_eq]
      simp [h7]
    | true =>
      unfold FrameCounter.clock_to_with
      rw [FrameCounter.writePhase_apply_bit7 (FrameCounter.stepPhase fc 1) val
          (by rw [hp.1, hb]) (by rw [hp.2.1, hd]) h7]
      split_ifs <;> rw [FrameCounter.blockPhase_eq] <;> simp_all
  · intro hb hd h7 hblock hcyc
    unfold FrameCounter.clock_to_with
    rw [FrameCounter.stepPhase_lt fc 1 hcyc]
    rw [FrameCounter.writePhase_apply_bit7 _ val (by simpa using hb) (by simpa using hd) h7]
    rw [if_pos (by simpa using hblock), FrameCounter.blockPhase_eq]
    simp

/-- C3 witness: the delayed-write theorem applied to concrete states — a
write of $80 at even cycle 0 latches with delay 3, and after two delay
cycles the third invocation fires exactly one half-frame clock. -/
theorem C3_witness :
    ((FrameCounter.new .Ntsc).write 0x80 0).write_delay = 3 ∧
    ((((FrameCounter.new .Ntsc).write 0x80 0).clockCycles 2).clock_to_with 1).events =
      [FrameType.Half] :=
  ⟨((C3_frame_counter_write_delay (FrameCounter.new .Ntsc) 0x80 0).1.2.1).trans (by decide),
   (C3_frame_counter_write_delay (((FrameCounter.new .Ntsc).write 0x80 0).clockCycles 2)
      0x80 0).2.2.2 (by decide) (by decide) (by decide) (by decide) (by decide)⟩

/-- C4 counterexample: `c4State` is built from `FrameCounter.new` by source
operations only (clocking to the step-3 boundary, which raises the IRQ flag,
then a $4017 write of $80 followed by its 3-cycle delay), yet it is a 5-step
state with the IRQ-pending flag still set: switching to 5-step mode does not
clear an already-raised frame IRQ, contradicting the claim that the flag is
never set while in 5-step mode. -/
theorem C4_counterexample :
    c4State.mode = Mode.Step5 ∧ c4State.irq_pending = true := by decide

/-- C4 (amended): `clock_to_with` newly raises the IRQ-pending flag only when
the mode is 4-step, the step index is at least 3 and IRQs are not inhibited,
and a $4017 write never raises it; the flag is therefore never *raised* in
5-step mode, but a flag raised in 4-step mode can survive a mode switch to
5-step (it is cleared only by $4015 reads or by writing $4017 with bit 6
set), so a reachable 5-step state can still carry it. -/
theorem C4_irq_raise_conditions :
    ∀ (fc : FrameCounter) (n : ℕ),
      ((fc.clock_to_with n).fc.irq_pending = true →
        fc.irq_pending = true ∨
          (fc.mode = Mode.Step4 ∧ 3 ≤ fc.step ∧ fc.inhibit_irq = false)) ∧
      (∀ (val m : ℕ), (fc.write val m).irq_pending = true → fc.irq_pending = true) := by
  intro fc n
  constructor
  · intro h
    unfold FrameCounter.clock_to_with at h
    rw [FrameCounter.blockPhase_irq, FrameCounter.writePhase_irq] at h
    exact FrameCounter.stepPhase_irq fc n h
  · intro val m h
    unfold FrameCounter.write at h
    cases h6 : val.testBit 6 with
    | true => simp [h6] at h
    | false => simp [h6] at h; exact h

/-- C4 witness: the raise-condition theorem applied at a concrete 4-step,
step-3 state whose boundary crossing raises the IRQ flag. -/
theorem C4_witness :
    (⟨.Ntsc, FrameCounter.STEP_CYCLES_NTSC, 3, .Step4, none, 0, 0, 22371, false,
        false⟩ : FrameCounter).irq_pending = true ∨
    ((⟨.Ntsc, FrameCounter.STEP_CYCLES_NTSC, 3, .Step4, none, 0, 0, 22371, false,
        false⟩ : FrameCounter).mode = Mode.Step4 ∧
     3 ≤ (⟨.Ntsc, FrameCounter.STEP_CYCLES_NTSC, 3, .Step4, none, 0, 0, 22371, false,
        false⟩ : FrameCounter).step ∧
     (⟨.Ntsc, FrameCounter.STEP_CYCLES_NTSC, 3, .Step4, none, 0, 0, 22371, false,
        false⟩ : FrameCounter).inhibit_irq = false) :=
  (C4_irq_raise_conditions
    ⟨.Ntsc, FrameCounter.STEP_CYCLES_NTSC, 3, .Step4, none, 0, 0, 22371, false, false⟩
    7457).1 (by decide)

namespace Dmc

/-- One DMC playback cycle never clears a pending DMC IRQ. -/
theorem stepCycle_irq (d : Dmc) (h : d.irq_pending = true) :
    d.stepCycle.irq_pending = true := by
  unfold stepCycle
  split_ifs <;> simp_all

/-- Batched DMC clocking never clears a pending DMC IRQ. -/
theorem clockOutAux_irq (n : ℕ) : ∀ (d : Dmc) (buf : ℕ → ℚ), d.irq_pending = true →
    (clockOutAux n d buf).1.irq_pending = true := by
  induction n with
  | zero => intro d buf h; exact h
  | succ n ih =>
    intro d buf h
    unfold clockOutAux
    exact ih _ _ (by simpa using stepCycle_irq d h)

/-- `Dmc.clock_to_output` never clears a pending DMC IRQ. -/
theorem clock_to_output_irq (d : Dmc) (t : ℕ) (buf : ℕ → ℚ) (h : d.irq_pending = true) :
    (d.clock_to_output t buf).1.irq_pending = true :=
  clockOutAux_irq _ d buf h

end Dmc

namespace Apu

/-- The frame-clock callback only touches the four waveform channels, never
the DMC. -/
theorem applyFrameEvent_dmc (s : Apu) (ev : FrameType) :
    (applyFrameEvent s ev).dmc = s.dmc := by
  cases ev <;> rfl

/-- A whole event list of frame clocks leaves the DMC untouched. -/
theorem foldl_applyFrameEvent_dmc (s : Apu) (evs : List FrameType) :
    (evs.foldl applyFrameEvent s).dmc = s.dmc := by
  induction evs generalizing s with
  | nil => rfl
  | cons e es ih => rw [List.foldl_cons, ih, applyFrameEvent_dmc]

/-- One `clock_to` loop iteration never clears a pending DMC IRQ. -/
theorem clockUpdate_dmc_irq (s : Apu) (n : ℕ) (h : s.dmc.irq_pending = true) :
    (clockUpdate s n).1.dmc.irq_pending = true := by
  simp only [clockUpdate]
  apply Dmc.clock_to_output_irq
  rw [foldl_applyFrameEvent_dmc]
  exact h

/-- The `clock_to` loop never clears a pending DMC IRQ. -/
theorem clockToGo_dmc_irq : ∀ (fuel : ℕ) (s : Apu) (n : ℕ), s.dmc.irq_pending = true →
    (clockToGo fuel s n).dmc.irq_pending = true := by
  intro fuel
  induction fuel with
  | zero => intro s n h; cases n <;> exact h
  | succ f ih =>
    intro s n h
    cases n with
    | zero => exact h
    | succ n => exact ih _ _ (clockUpdate_dmc_irq s (n + 1) h)

/-- Catch-up clocking never clears a pending DMC IRQ. -/
theorem clock_to_dmc_irq (s : Apu) (t : ℕ) (h : s.dmc.irq_pending = true) :
    (s.clock_to t).dmc.irq_pending = true :=
  clockToGo_dmc_irq _ _ _ h

/-- Iterated `peek_status()` calls return the same byte every time and leave
the state exactly as it was. -/
theorem peekCalls_pure : ∀ (n : ℕ) (s : Apu),
    (peekCalls n s).2 = s ∧ (peekCalls n s).1 = List.replicate n s.peek_status := by
  intro n
  induction n with
  | zero => intro s; exact ⟨rfl, rfl⟩
  | succ n ih =>
    intro s
    constructor
    · show (peekCalls n s).2 = s
      exact (ih s).1
    · show s.peek_status :: (peekCalls n s).1 = _
      rw [(ih s).2, List.replicate_succ]

end Apu

/-- C5: `read_status()` returns the status of the caught-up state and its
only further side effect is clearing the frame-counter IRQ flag — the result
state is exactly the caught-up state with `frame_counter.irq_pending := false`
— and it never clears a pending DMC IRQ (catch-up clocking can only raise
that flag); `peek_status()` never mutates any APU state no matter how many
times it is called. -/
theorem C5_read_status_side_effects (s : Apu) :
    (s.read_status.2 =
      { s.clock_to s.master_cycle with
        frame_counter :=
          { (s.clock_to s.master_cycle).frame_counter with irq_pending := false } }) ∧
    s.read_status.2.frame_counter.irq_pending = false ∧
    s.read_status.1 = (s.clock_to s.master_cycle).peek_status ∧
    (s.dmc.irq_pending = true → s.read_status.2.dmc.irq_pending = true) ∧
    (∀ n, (Apu.peekCalls n s).2 = s ∧
          (Apu.peekCalls n s).1 = List.replicate n s.peek_status) := by
  refine ⟨rfl, rfl, rfl, ?_, fun n => Apu.peekCalls_pure n s⟩
  intro h
  show (s.clock_to s.master_cycle).dmc.irq_pending = true
  exact Apu.clock_to_dmc_irq s _ h

/-- C5 witness: the side-effect theorem applied to a fresh APU carrying a
pending DMC IRQ — reading $4015 leaves the DMC IRQ pending — and to three
iterated peeks of a fresh APU, which change nothing. -/
theorem C5_witness :
    (Apu.read_status { Apu.new with
        dmc := { Dmc.new with irq_pending := true } }).2.dmc.irq_pending = true ∧
    (Apu.peekCalls 3 Apu.new).2 = Apu.new :=
  ⟨(C5_read_status_side_effects
      { Apu.new with dmc := { Dmc.new with irq_pending := true } }).2.2.2.1 rfl,
   ((C5_read_status_side_effects Apu.new).2.2.2.2 3).1⟩

namespace FrameCounter

/-- The step-boundary phase consumes at most the offered cycles, and returns
exactly the unconsumed remainder. -/
theorem stepPhase_consumed (fc : FrameCounter) (n : ℕ) :
    (stepPhase fc n).consumed ≤ n ∧
    (stepPhase fc n).remaining = n - (stepPhase fc n).consumed := by
  simp only [stepPhase, apply_ite StepResult.consumed, apply_ite StepResult.remaining,
    apply_ite FrameCounter.cycle]
  split_ifs <;> simp_all <;> omega

/-- The write phase never changes the consumed/remaining cycle counts. -/
theorem writePhase_consumed (r : StepResult) :
    (writePhase r).consumed = r.consumed ∧ (writePhase r).remaining = r.remaining := by
  unfold writePhase
  rcases h : r.fc.write_buffer with _ | v <;> simp only [h]
  · simp
  · split_ifs <;> simp

/-- `clock_to_with` consumes at most the offered cycles and returns exactly
the unconsumed remainder. -/
theorem clock_to_with_consumed (fc : FrameCounter) (n : ℕ) :
    (fc.clock_to_with n).consumed ≤ n ∧
    (fc.clock_to_with n).remaining = n - (fc.clock_to_with n).consumed := by
  unfold clock_to_with
  rw [blockPhase_eq]
  have hw := writePhase_consumed (stepPhase fc n)
  have hs := stepPhase_consumed fc n
  simp only [hw.1, hw.2]
  exact hs

end FrameCounter

namespace Apu

/-- The frame-clock callback never changes the cycle bookkeeping. -/
theorem applyFrameEvent_mc (s : Apu) (ev : FrameType) :
    (applyFrameEvent s ev).master_cycle = s.master_cycle ∧
    (applyFrameEvent s ev).cycle = s.cycle := by
  cases ev <;> exact ⟨rfl, rfl⟩

/-- A whole event list of frame clocks never changes the cycle bookkeeping. -/
theorem foldl_applyFrameEvent_mc (s : Apu) (evs : List FrameType) :
    (evs.foldl applyFrameEvent s).master_cycle = s.master_cycle ∧
    (evs.foldl applyFrameEvent s).cycle = s.cycle := by
  induction evs generalizing s with
  | nil => exact ⟨rfl, rfl⟩
  | cons e es ih =>
    rw [List.foldl_cons]
    exact ⟨((ih _).1).trans (applyFrameEvent_mc s e).1,
           ((ih _).2).trans (applyFrameEvent_mc s e).2⟩

/-- One `clock_to` loop iteration advances `cycle` by exactly the cycles the
frame counter consumed and leaves `master_cycle` alone. -/
theorem clockUpdate_mc (s : Apu) (n : ℕ) :
    (clockUpdate s n).1.master_cycle = s.master_cycle ∧
    (clockUpdate s n).1.cycle = s.cycle + (s.frame_counter.clock_to_with n).consumed ∧
    (clockUpdate s n).2 = (s.frame_counter.clock_to_with n).remaining := by
  refine ⟨?_, ?_, ?_⟩
  · simp only [clockUpdate]
    exact (foldl_applyFrameEvent_mc _ _).1
  · simp only [clockUpdate]
    rw [(foldl_applyFrameEvent_mc _ _).2]
  · rfl

/-- The `clock_to` loop keeps `cycle` bounded by `master_cycle` whenever it
starts within budget, and never changes `master_cycle`. -/
theorem clockToGo_le : ∀ (fuel : ℕ) (s : Apu) (n : ℕ), s.cycle + n ≤ s.master_cycle →
    (clockToGo fuel s n).cycle ≤ s.master_cycle ∧
    (clockToGo fuel s n).master_cycle = s.master_cycle := by
  intro fuel
  induction fuel with
  | zero =>
    intro s n h
    cases n <;> simp only [clockToGo] <;> exact ⟨by omega, by trivial⟩
  | succ f ih =>
    intro s n h
    cases n with
    | zero => simp only [clockToGo]; exact ⟨by omega, by trivial⟩
    | succ n =>
      have hm := clockUpdate_mc s (n + 1)
      have hc := s.frame_counter.clock_to_with_consumed (n + 1)
      simp only [clockToGo]
      have := ih (clockUpdate s (n + 1)).1 (clockUpdate s (n + 1)).2
        (by rw [hm.1, hm.2.1, hm.2.2]; omega)
      rw [hm.1] at this
      exact this

/-- `clock_to` establishes `cycle ≤ t` and `master_cycle = t` for any target
`t` at least the current `cycle` (every call site passes `master_cycle`). -/
theorem clock_to_le (s : Apu) (t : ℕ) (h : s.cycle ≤ t) :
    (s.clock_to t).cycle ≤ t ∧ (s.clock_to t).master_cycle = t := by
  unfold clock_to
  exact clockToGo_le (t - s.cycle) { s with master_cycle := t } (t - s.cycle)
    (by simp; omega)

/-- `should_clock()` never changes the cycle bookkeeping. -/
theorem should_clock_fn_mc (H : DmcHooks) (s : Apu) :
    (should_clock_fn H s).2.cycle = s.cycle ∧
    (should_clock_fn H s).2.master_cycle = s.master_cycle := by
  unfold should_clock_fn
  split_ifs <;> exact ⟨rfl, rfl⟩

end Apu

/-- C8 counterexample: `c8State` is reached from `Apu.new` by one
`clock_lazy()` and one $4015 write (whose handler catches up, making
`cycle = master_cycle = 1`); `Reset for Apu` then zeroes `master_cycle` while
leaving `cycle` untouched, so after the reset `master_cycle < cycle` — reset
does not preserve the claimed invariant. -/
theorem C8_counterexample :
    (c8State.reset ResetKind.Soft).master_cycle < (c8State.reset ResetKind.Soft).cycle := by
  decide

/-- C8 (amended): `master_cycle ≥ cycle` holds for a fresh APU and is
preserved by `clock_lazy`, by `clock_to` for any target at least the current
`cycle` (every call site passes `master_cycle`), by `clock_flush`, and by
every register write; `reset`, however, zeroes `master_cycle` without
touching `cycle`, so it preserves the invariant only from states with
`cycle = 0`.  The difference `master_cycle - cycle` is the span the channels
have not yet caught up. -/
theorem C8_master_cycle_invariant :
    Apu.new.cycle ≤ Apu.new.master_cycle ∧
    (∀ (H : DmcHooks) (s : Apu), s.cycle ≤ s.master_cycle →
      (s.clock_lazy H).cycle ≤ (s.clock_lazy H).master_cycle) ∧
    (∀ (s : Apu) (t : ℕ), s.cycle ≤ t →
      (s.clock_to t).cycle ≤ (s.clock_to t).master_cycle) ∧
    (∀ s : Apu, s.cycle ≤ s.master_cycle →
      s.clock_flush.cycle ≤ s.clock_flush.master_cycle) ∧
    (∀ (s : Apu) (a : ApuAction), s.cycle ≤ s.master_cycle →
      (s.applyWrite a).cycle ≤ (s.applyWrite a).master_cycle) ∧
    (∀ (s : Apu) (k : ResetKind), s.cycle = 0 →
      (s.reset k).cycle ≤ (s.reset k).master_cycle) := by
  have hflush : ∀ s : Apu, s.clock_flush.cycle ≤ s.clock_flush.master_cycle := by
    intro s
    simp [Apu.clock_flush]
  have hct : ∀ (s : Apu) (t : ℕ), s.cycle ≤ t →
      (s.clock_to t).cycle ≤ (s.clock_to t).master_cycle := by
    intro s t h
    have := Apu.clock_to_le s t h
    omega
  have hw : ∀ (s : Apu) (a : ApuAction), s.cycle ≤ s.master_cycle →
      (s.applyWrite a).cycle ≤ (s.applyWrite a).master_cycle := by
    intro s a h
    have hc := Apu.clock_to_le s s.master_cycle h
    cases a with
    | clock => exact h
    | ctrl c v => cases c <;> simp [Apu.applyWrite, Apu.write_ctrl] <;> omega
    | sweep c v => cases c <;> simp [Apu.applyWrite, Apu.write_sweep] <;> omega
    | timerLo c v => cases c <;> simp [Apu.applyWrite, Apu.write_timer_lo] <;> omega
    | timerHi c v => cases c <;> simp [Apu.applyWrite, Apu.write_timer_hi] <;> omega
    | linear v => simp [Apu.applyWrite, Apu.write_linear_counter]; omega
    | length c v => cases c <;> simp [Apu.applyWrite, Apu.write_length] <;> omega
    | dmcOutput v => simp [Apu.applyWrite, Apu.write_dmc_output]; omega
    | dmcAddr v => simp [Apu.applyWrite, Apu.write_dmc_addr]; omega
    | status v => simp [Apu.applyWrite, Apu.write_status]; omega
    | frame v => simp [Apu.applyWrite, Apu.write_frame_counter]; omega
  refine ⟨le_refl 0, ?_, hct, fun s _ => hflush s, hw, ?_⟩
  · intro H s h
    simp only [Apu.clock_lazy]
    split_ifs with h1 h2
    · exact hflush _
    · have hp := Apu.should_clock_fn_mc H { s with
        master_cycle := s.master_cycle + 1, cpu_cycle := s.cpu_cycle + 1 }
      exact hct (Apu.should_clock_fn H { s with
        master_cycle := s.master_cycle + 1, cpu_cycle := s.cpu_cycle + 1 }).2
        (Apu.should_clock_fn H { s with
          master_cycle := s.master_cycle + 1, cpu_cycle := s.cpu_cycle + 1 }).2.master_cycle
        (by rw [hp.1, hp.2]; simp; omega)
    · have hp := Apu.should_clock_fn_mc H { s with
        master_cycle := s.master_cycle + 1, cpu_cycle := s.cpu_cycle + 1 }
      rw [hp.1, hp.2]
      simp
      omega
  · intro s k h
    simp [Apu.reset, h]

/-- C8 witness: the invariant theorem applied at concrete states — the fresh
APU clocked to cycle 5 keeps `cycle ≤ master_cycle`, and reset from the
fresh (cycle-0) APU keeps it as well. -/
theorem C8_witness :
    (Apu.new.clock_to 5).cycle ≤ (Apu.new.clock_to 5).master_cycle ∧
    (Apu.new.reset ResetKind.Soft).cycle ≤ (Apu.new.reset ResetKind.Soft).master_cycle :=
  ⟨C8_master_cycle_invariant.2.2.1 Apu.new 5 (by decide),
   C8_master_cycle_invariant.2.2.2.2.2 Apu.new ResetKind.Soft (by decide)⟩

namespace Apu

theorem stripFlag_eq_iff (a b : Apu) : a.stripFlag = b.stripFlag ↔
    (a.frame_counter = b.frame_counter ∧ a.master_cycle = b.master_cycle ∧
     a.cpu_cycle = b.cpu_cycle ∧ a.cycle = b.cycle ∧ a.clock_rate = b.clock_rate ∧
     a.region = b.region ∧ a.pulse1 = b.pulse1 ∧ a.pulse2 = b.pulse2 ∧
     a.triangle = b.triangle ∧ a.noise = b.noise ∧ a.dmc = b.dmc ∧
     a.filter_chain = b.filter_chain ∧ a.channel_outputs = b.channel_outputs ∧
     a.audio_samples = b.audio_samples ∧ a.sample_period = b.sample_period ∧
     a.sample_counter = b.sample_counter ∧ a.mapper_silenced = b.mapper_silenced ∧
     a.skip_mixing = b.skip_mixing) := by
  cases a
  cases b
  simp [Apu.stripFlag, Apu.mk.injEq]

theorem eq_setFlag_of_stripFlag_eq {a b : Apu} (h : a.stripFlag = b.stripFlag) :
    a = { b with should_clock := a.should_clock } := by
  obtain ⟨h1, h2, h3, h4, h5, h6, h7, h8, h9, h10, h11, h12, h13, h14, h15, h16, h17, h18⟩ :=
    (stripFlag_eq_iff a b).1 h
  cases a
  cases b
  simp_all

theorem applyFrameEvent_flagVar (ev : FrameType)
    (a1 : FrameCounter) (a2 a3 a4 : ℕ) (a5 : ℚ) (a6 : NesRegion)
    (a7 a8 a9 a10 : ChannelGen) (a11 : Dmc) (a12 : FilterChain)
    (a13 : ℕ → ℚ) (a14 : List ℚ) (a15 a16 : ℚ) (a17 a18 : Bool) (b : Bool) :
    applyFrameEvent ⟨a1, a2, a3, a4, a5, a6, a7, a8, a9, a10, a11, a12, a13, a14,
      a15, a16, a17, a18, b⟩ ev =
    { applyFrameEvent ⟨a1, a2, a3, a4, a5, a6, a7, a8, a9, a10, a11, a12, a13, a14,
        a15, a16, a17, a18, false⟩ ev with should_clock := b } := by
  cases ev <;> rfl

theorem foldl_applyFrameEvent_flagVar (evs : List FrameType) :
    ∀ (a1 : FrameCounter) (a2 a3 a4 : ℕ) (a5 : ℚ) (a6 : NesRegion)
      (a7 a8 a9 a10 : ChannelGen) (a11 : Dmc) (a12 : FilterChain)
      (a13 : ℕ → ℚ) (a14 : List ℚ) (a15 a16 : ℚ) (a17 a18 : Bool) (b : Bool),
    evs.foldl applyFrameEvent ⟨a1, a2, a3, a4, a5, a6, a7, a8, a9, a10, a11, a12, a13,
      a14, a15, a16, a17, a18, b⟩ =
    { evs.foldl applyFrameEvent ⟨a1, a2, a3, a4, a5, a6, a7, a8, a9, a10, a11, a12,
        a13, a14, a15, a16, a17, a18, false⟩ with should_clock := b } := by
  induction evs with
  | nil => intro a1 a2 a3 a4 a5 a6 a7 a8 a9 a10 a11 a12 a13 a14 a15 a16 a17 a18 b; rfl
  | cons e es ih =>
    intro a1 a2 a3 a4 a5 a6 a7 a8 a9 a10 a11 a12 a13 a14 a15 a16 a17 a18 b
    rw [List.foldl_cons, List.foldl_cons]
    cases e <;> exact ih _ _ _ _ _ _ _ _ _ _ _ _ _ _ _ _ _ _ _

theorem applyFrameEvent_flag_pres (s : Apu) (ev : FrameType) :
    (applyFrameEvent s ev).should_clock = s.should_clock := by
  cases ev <;> rfl

theorem foldl_applyFrameEvent_flag_pres (evs : List FrameType) (s : Apu) :
    (evs.foldl applyFrameEvent s).should_clock = s.should_clock := by
  induction evs generalizing s with
  | nil => rfl
  | cons e es ih => rw [List.foldl_cons, ih, applyFrameEvent_flag_pres]

theorem clockUpdate_flag_pres (s : Apu) (n : ℕ) :
    (clockUpdate s n).1.should_clock = s.should_clock := by
  simp only [clockUpdate]
  exact foldl_applyFrameEvent_flag_pres _ _

theorem clockUpdate_flagVar (n : ℕ) (a1 : FrameCounter) (a2 a3 a4 : ℕ) (a5 : ℚ) (a6 : NesRegion)
    (a7 a8 a9 a10 : ChannelGen) (a11 : Dmc) (a12 : FilterChain)
    (a13 : ℕ → ℚ) (a14 : List ℚ) (a15 a16 : ℚ) (a17 a18 : Bool) (b : Bool) :
    clockUpdate ⟨a1, a2, a3, a4, a5, a6, a7, a8, a9, a10, a11, a12, a13, a14, a15, a16, a17, a18, b⟩ n =
    ({ (clockUpdate ⟨a1, a2, a3, a4, a5, a6, a7, a8, a9, a10, a11, a12, a13, a14, a15, a16, a17, a18, false⟩ n).1 with should_clock := b },
     (clockUpdate ⟨a1, a2, a3, a4, a5, a6, a7, a8, a9, a10, a11, a12, a13, a14, a15, a16, a17, a18, false⟩ n).2) := by
  simp only [clockUpdate]
  rw [foldl_applyFrameEvent_flagVar]

theorem clockToGo_flagVar : ∀ (fuel n : ℕ) (a1 : FrameCounter) (a2 a3 a4 : ℕ) (a5 : ℚ) (a6 : NesRegion)
    (a7 a8 a9 a10 : ChannelGen) (a11 : Dmc) (a12 : FilterChain)
    (a13 : ℕ → ℚ) (a14 : List ℚ) (a15 a16 : ℚ) (a17 a18 : Bool) (b : Bool),
    clockToGo fuel ⟨a1, a2, a3, a4, a5, a6, a7, a8, a9, a10, a11, a12, a13, a14, a15, a16, a17, a18, b⟩ n =
    { clockToGo fuel ⟨a1, a2, a3, a4, a5, a6, a7, a8, a9, a10, a11, a12, a13, a14, a15, a16, a17, a18, false⟩ n with should_clock := b } := by
  intro fuel
  induction fuel with
  | zero =>
    intro n a1 a2 a3 a4 a5 a6 a7 a8 a9 a10 a11 a12 a13 a14 a15 a16 a17 a18 b
    cases n <;> rfl
  | succ f ih =>
    intro n a1 a2 a3 a4 a5 a6 a7 a8 a9 a10 a11 a12 a13 a14 a15 a16 a17 a18 b
    cases n with
    | zero => rfl
    | succ n =>
      have hb := clockUpdate_flagVar (n + 1) a1 a2 a3 a4 a5 a6 a7 a8 a9 a10 a11 a12 a13 a14 a15 a16 a17 a18 b
      have hz : (clockUpdate ⟨a1, a2, a3, a4, a5, a6, a7, a8, a9, a10, a11, a12, a13, a14, a15, a16, a17, a18, false⟩ (n + 1)).1.should_clock = false :=
        clockUpdate_flag_pres _ _
      simp only [clockToGo]
      rw [hb]
      dsimp only
      rw [ih]
      have he : ((clockUpdate ⟨a1, a2, a3, a4, a5, a6, a7, a8, a9, a10, a11, a12, a13, a14, a15, a16, a17, a18, false⟩ (n + 1)).1 : Apu) =
          ⟨(clockUpdate ⟨a1, a2, a3, a4, a5, a6, a7, a8, a9, a10, a11, a12, a13, a14, a15, a16, a17, a18, false⟩ (n + 1)).1.frame_counter,
           (clockUpdate ⟨a1, a2, a3, a4, a5, a6, a7, a8, a9, a10, a11, a12, a13, a14, a15, a16, a17, a18, false⟩ (n + 1)).1.master_cycle,
           (clockUpdate ⟨a1, a2, a3, a4, a5, a6, a7, a8, a9, a10, a11, a12, a13, a14, a15, a16, a17, a18, false⟩ (n + 1)).1.cpu_cycle,
           (clockUpdate ⟨a1, a2, a3, a4, a5, a6, a7, a8, a9, a10, a11, a12, a13, a14, a15, a16, a17, a18, false⟩ (n + 1)).1.cycle,
           (clockUpdate ⟨a1, a2, a3, a4, a5, a6, a7, a8, a9, a10, a11, a12, a13, a14, a15, a16, a17, a18, false⟩ (n + 1)).1.clock_rate,
           (clockUpdate ⟨a1, a2, a3, a4, a5, a6, a7, a8, a9, a10, a11, a12, a13, a14, a15, a16, a17, a18, false⟩ (n + 1)).1.region,
           (clockUpdate ⟨a1, a2, a3, a4, a5, a6, a7, a8, a9, a10, a11, a12, a13, a14, a15, a16, a17, a18, false⟩ (n + 1)).1.pulse1,
           (clockUpdate ⟨a1, a2, a3, a4, a5, a6, a7, a8, a9, a10, a11, a12, a13, a14, a15, a16, a17, a18, false⟩ (n + 1)).1.pulse2,
           (clockUpdate ⟨a1, a2, a3, a4, a5, a6, a7, a8, a9, a10, a11, a12, a13, a14, a15, a16, a17, a18, false⟩ (n + 1)).1.triangle,
           (clockUpdate ⟨a1, a2, a3, a4, a5, a6, a7, a8, a9, a10, a11, a12, a13, a14, a15, a16, a17, a18, false⟩ (n + 1)).1.noise,
           (clockUpdate ⟨a1, a2, a3, a4, a5, a6, a7, a8, a9, a10, a11, a12, a13, a14, a15, a16, a17, a18, false⟩ (n + 1)).1.dmc,
           (clockUpdate ⟨a1, a2, a3, a4, a5, a6, a7, a8, a9, a10, a11, a12, a13, a14, a15, a16, a17, a18, false⟩ (n + 1)).1.filter_chain,
           (clockUpdate ⟨a1, a2, a3, a4, a5, a6, a7, a8, a9, a10, a11, a12, a13, a14, a15, a16, a17, a18, false⟩ (n + 1)).1.channel_outputs,
           (clockUpdate ⟨a1, a2, a3, a4, a5, a6, a7, a8, a9, a10, a11, a12, a13, a14, a15, a16, a17, a18, false⟩ (n + 1)).1.audio_samples,
           (clockUpdate ⟨a1, a2, a3, a4, a5, a6, a7, a8, a9, a10, a11, a12, a13, a14, a15, a16, a17, a18, false⟩ (n + 1)).1.sample_period,
           (clockUpdate ⟨a1, a2, a3, a4, a5, a6, a7, a8, a9, a10, a11, a12, a13, a14, a15, a16, a17, a18, false⟩ (n + 1)).1.sample_counter,
           (clockUpdate ⟨a1, a2, a3, a4, a5, a6, a7, a8, a9, a10, a11, a12, a13, a14, a15, a16, a17, a18, false⟩ (n + 1)).1.mapper_silenced,
           (clockUpdate ⟨a1, a2, a3, a4, a5, a6, a7, a8, a9, a10, a11, a12, a13, a14, a15, a16, a17, a18, false⟩ (n + 1)).1.skip_mixing,
           false⟩ :=
        Apu.ext rfl rfl rfl rfl rfl rfl rfl rfl rfl rfl rfl rfl rfl rfl rfl rfl rfl rfl hz
      rw [he]

theorem clock_to_flag (s : Apu) (b : Bool) (t : ℕ) :
    clock_to { s with should_clock := b } t = { clock_to s t with should_clock := b } := by
  cases s with
  | mk a1 a2 a3 a4 a5 a6 a7 a8 a9 a10 a11 a12 a13 a14 a15 a16 a17 a18 a19 =>
    have h1 := clockToGo_flagVar (t - a4) (t - a4) a1 t a3 a4 a5 a6 a7 a8 a9 a10 a11
      a12 a13 a14 a15 a16 a17 a18 b
    have h2 := clockToGo_flagVar (t - a4) (t - a4) a1 t a3 a4 a5 a6 a7 a8 a9 a10 a11
      a12 a13 a14 a15 a16 a17 a18 a19
    unfold clock_to
    dsimp only
    rw [h1, h2]

theorem clock_to_stripFlag {a b : Apu} (h : a.stripFlag = b.stripFlag) (t : ℕ) :
    (a.clock_to t).stripFlag = (b.clock_to t).stripFlag := by
  rw [eq_setFlag_of_stripFlag_eq h, clock_to_flag]
  simp [Apu.stripFlag]

end Apu

namespace FrameCounter

theorem clock_to_with_span (fc : FrameCounter) (n : ℕ) (hb : fc.write_buffer = none)
    (hk : fc.block_counter = 0) (hm : fc.cycle + n < fc.threshold) :
    fc.clock_to_with n = ⟨{ fc with cycle := fc.cycle + n }, n, 0, []⟩ := by
  unfold clock_to_with
  rw [stepPhase_lt fc n hm, writePhase_none _ (by simpa using hb), blockPhase_eq]
  simp [hk]

end FrameCounter

namespace Apu

theorem clockUpdate_span (s : Apu) (n : ℕ)
    (hb : s.frame_counter.write_buffer = none)
    (hk : s.frame_counter.block_counter = 0)
    (hm : s.frame_counter.cycle + (n + 1) < s.frame_counter.threshold) :
    clockUpdate s (n + 1) =
      ({ s.spanTo (s.cycle + (n + 1)) with master_cycle := s.master_cycle }, 0) := by
  simp only [clockUpdate, Apu.spanTo]
  rw [FrameCounter.clock_to_with_span s.frame_counter (n + 1) hb hk hm]
  simp only [List.foldl_nil, Nat.add_sub_cancel_left]

theorem clock_to_span (s : Apu) (t : ℕ) (h1 : s.cycle < t)
    (hb : s.frame_counter.write_buffer = none)
    (hk : s.frame_counter.block_counter = 0)
    (hm : s.frame_counter.cycle + (t - s.cycle) < s.frame_counter.threshold) :
    s.clock_to t = s.spanTo t := by
  obtain ⟨n, hn⟩ : ∃ n, t - s.cycle = n + 1 := ⟨t - s.cycle - 1, by omega⟩
  have ht : s.cycle + (n + 1) = t := by omega
  unfold clock_to
  dsimp only
  rw [hn]
  simp only [clockToGo]
  rw [clockUpdate_span ({ s with master_cycle := t } : Apu) n hb hk
    (by show s.frame_counter.cycle + (n + 1) < s.frame_counter.threshold
        rw [← hn]; exact hm)]
  dsimp only
  simp only [clockToGo]
  show ({ ({ s with master_cycle := t } : Apu).spanTo (s.cycle + (n + 1)) with
      master_cycle := t } : Apu) = s.spanTo t
  rw [ht]
  rfl

end Apu

namespace ChannelGen

theorem clockOutAux_timer (n : ℕ) : ∀ (off : ℕ) (ch : ChannelGen) (buf : ℕ → ℚ),
    (clockOutAux n off ch buf).1.timer_cycle = ch.timer_cycle + n := by
  induction n with
  | zero => intro off ch buf; rfl
  | succ n ih =>
    intro off ch buf
    show (clockOutAux n off _ _).1.timer_cycle = _
    rw [ih]
    show ch.timer_cycle + 1 + n = _
    omega

theorem clockOutAux_length (n : ℕ) : ∀ (off : ℕ) (ch : ChannelGen) (buf : ℕ → ℚ),
    (clockOutAux n off ch buf).1.length = ch.length := by
  induction n with
  | zero => intro off ch buf; rfl
  | succ n ih =>
    intro off ch buf
    show (clockOutAux n off _ _).1.length = _
    rw [ih]
    show ({ ch.stepCycle with timer_cycle := ch.timer_cycle + 1 } : ChannelGen).length = _
    unfold stepCycle
    split_ifs <;> rfl

theorem clockOutAux_fst_buf (n : ℕ) : ∀ (off : ℕ) (ch : ChannelGen) (buf buf2 : ℕ → ℚ),
    (clockOutAux n off ch buf).1 = (clockOutAux n off ch buf2).1 := by
  induction n with
  | zero => intro off ch buf buf2; rfl
  | succ n ih =>
    intro off ch buf buf2
    exact ih off _ _ _

theorem clockOutAux_add (m : ℕ) : ∀ (n off : ℕ) (ch : ChannelGen) (buf : ℕ → ℚ),
    clockOutAux (m + n) off ch buf =
      clockOutAux n off (clockOutAux m off ch buf).1 (clockOutAux m off ch buf).2 := by
  induction m with
  | zero => intro n off ch buf; rw [Nat.zero_add]; rfl
  | succ m ih =>
    intro n off ch buf
    show clockOutAux (m + 1 + n) off ch buf = _
    rw [show m + 1 + n = (m + n) + 1 from by omega]
    show clockOutAux (m + n) off _ _ = _
    rw [ih]
    rfl

theorem clockOutAux_update_comm (n : ℕ) : ∀ (off : ℕ) (ch : ChannelGen) (buf : ℕ → ℚ)
    (j : ℕ) (v : ℚ), (∀ c : ℕ, j ≠ 6 * c + off) →
    (clockOutAux n off ch (Function.update buf j v)).2 =
      Function.update (clockOutAux n off ch buf).2 j v := by
  induction n with
  | zero => intro off ch buf j v hj; rfl
  | succ n ih =>
    intro off ch buf j v hj
    show (clockOutAux n off _ (Function.update (Function.update buf j v)
      (6 * ch.timer_cycle + off) ch.output)).2 = _
    rw [Function.update_comm (by exact fun h => hj ch.timer_cycle h)]
    rw [ih off _ _ j v hj]
    rfl

end ChannelGen

namespace Dmc

theorem dmc_clockOutAux_timer (n : ℕ) : ∀ (d : Dmc) (buf : ℕ → ℚ),
    (clockOutAux n d buf).1.timer_cycle = d.timer_cycle + n := by
  induction n with
  | zero => intro d buf; rfl
  | succ n ih =>
    intro d buf
    show (clockOutAux n _ _).1.timer_cycle = _
    rw [ih]
    show d.timer_cycle + 1 + n = _
    omega

theorem dmc_clockOutAux_fst_buf (n : ℕ) : ∀ (d : Dmc) (buf buf2 : ℕ → ℚ),
    (clockOutAux n d buf).1 = (clockOutAux n d buf2).1 := by
  induction n with
  | zero => intro d buf buf2; rfl
  | succ n ih =>
    intro d buf buf2
    exact ih _ _ _

theorem dmc_clockOutAux_add (m : ℕ) : ∀ (n : ℕ) (d : Dmc) (buf : ℕ → ℚ),
    clockOutAux (m + n) d buf =
      clockOutAux n (clockOutAux m d buf).1 (clockOutAux m d buf).2 := by
  induction m with
  | zero => intro n d buf; rw [Nat.zero_add]; rfl
  | succ m ih =>
    intro n d buf
    show clockOutAux (m + 1 + n) d buf = _
    rw [show m + 1 + n = (m + n) + 1 from by omega]
    show clockOutAux (m + n) _ _ = _
    rw [ih]
    rfl

theorem dmc_clockOutAux_update_comm (n : ℕ) : ∀ (d : Dmc) (buf : ℕ → ℚ)
    (j : ℕ) (v : ℚ), (∀ c : ℕ, j ≠ 6 * c + 4) →
    (clockOutAux n d (Function.update buf j v)).2 =
      Function.update (clockOutAux n d buf).2 j v := by
  induction n with
  | zero => intro d buf j v hj; rfl
  | succ n ih =>
    intro d buf j v hj
    show (clockOutAux n _ (Function.update (Function.update buf j v)
      (6 * d.timer_cycle + 4) d.output)).2 = _
    rw [Function.update_comm (by exact fun h => hj d.timer_cycle h)]
    rw [ih _ _ j v hj]
    rfl

end Dmc

namespace ChannelGen

theorem stepCycle_tc (ch : ChannelGen) (y : ℕ) :
    stepCycle { ch with timer_cycle := y } = { stepCycle ch with timer_cycle := y } := by
  unfold stepCycle
  split_ifs <;> rfl

theorem iterate_stepCycle_tc (n : ℕ) : ∀ (ch : ChannelGen) (y : ℕ),
    stepCycle^[n] { ch with timer_cycle := y } = { stepCycle^[n] ch with timer_cycle := y } := by
  induction n with
  | zero => intro ch y; rfl
  | succ n ih =>
    intro ch y
    rw [Function.iterate_succ_apply, Function.iterate_succ_apply, stepCycle_tc, ih]

theorem clockOutAux_fst (n : ℕ) : ∀ (off : ℕ) (ch : ChannelGen) (buf : ℕ → ℚ),
    (clockOutAux n off ch buf).1 =
      { stepCycle^[n] ch with timer_cycle := ch.timer_cycle + n } := by
  induction n with
  | zero => intro off ch buf; rfl
  | succ n ih =>
    intro off ch buf
    show (clockOutAux n off _ _).1 = _
    rw [ih]
    show ({ stepCycle^[n] ({ ch.stepCycle with timer_cycle := ch.timer_cycle + 1 } :
      ChannelGen) with timer_cycle := ch.timer_cycle + 1 + n } : ChannelGen) = _
    rw [iterate_stepCycle_tc, ← Function.iterate_succ_apply]
    show ({ stepCycle^[n + 1] ch with timer_cycle := ch.timer_cycle + 1 + n } :
      ChannelGen) = _
    rw [show ch.timer_cycle + 1 + n = ch.timer_cycle + (n + 1) from by omega]

theorem output_tc (ch : ChannelGen) (y : ℕ) :
    ({ ch with timer_cycle := y } : ChannelGen).output = ch.output := rfl

end ChannelGen

namespace Dmc

theorem dmc_stepCycle_tc (d : Dmc) (y : ℕ) :
    stepCycle { d with timer_cycle := y } = { stepCycle d with timer_cycle := y } := by
  unfold stepCycle
  split_ifs <;> rfl

theorem dmc_iterate_stepCycle_tc (n : ℕ) : ∀ (d : Dmc) (y : ℕ),
    stepCycle^[n] { d with timer_cycle := y } = { stepCycle^[n] d with timer_cycle := y } := by
  induction n with
  | zero => intro d y; rfl
  | succ n ih =>
    intro d y
    rw [Function.iterate_succ_apply, Function.iterate_succ_apply, dmc_stepCycle_tc, ih]

theorem dmc_clockOutAux_fst (n : ℕ) : ∀ (d : Dmc) (buf : ℕ → ℚ),
    (clockOutAux n d buf).1 = { stepCycle^[n] d with timer_cycle := d.timer_cycle + n } := by
  induction n with
  | zero => intro d buf; rfl
  | succ n ih =>
    intro d buf
    show (clockOutAux n _ _).1 = _
    rw [ih]
    show ({ stepCycle^[n] ({ d.stepCycle with timer_cycle := d.timer_cycle + 1 } :
      Dmc) with timer_cycle := d.timer_cycle + 1 + n } : Dmc) = _
    rw [dmc_iterate_stepCycle_tc, ← Function.iterate_succ_apply]
    show ({ stepCycle^[n + 1] d with timer_cycle := d.timer_cycle + 1 + n } : Dmc) = _
    rw [show d.timer_cycle + 1 + n = d.timer_cycle + (n + 1) from by omega]

theorem dmc_output_tc (d : Dmc) (y : ℕ) :
    ({ d with timer_cycle := y } : Dmc).output = d.output := rfl

end Dmc

namespace Apu

theorem clockToGo_zeroN (fuel : ℕ) (s : Apu) : clockToGo fuel s 0 = s := by
  cases fuel <;> rfl

theorem setMaster_self (s : Apu) : ({ s with master_cycle := s.master_cycle } : Apu) = s := by
  cases s
  rfl

theorem clock_to_self (s : Apu) (t : ℕ) (h1 : s.cycle = t) (h2 : s.master_cycle = t) :
    s.clock_to t = s := by
  unfold clock_to
  dsimp only
  rw [show t - s.cycle = 0 from by omega, clockToGo_zeroN]
  rw [← h2, setMaster_self]

theorem clock_to_setMaster (s : Apu) (x t : ℕ) :
    ({ s with master_cycle := x } : Apu).clock_to t = s.clock_to t := rfl

theorem stripFlag_setFlag (s : Apu) (b : Bool) :
    ({ s with should_clock := b } : Apu).stripFlag = s.stripFlag := rfl

theorem exists_setFlag_of_stripFlag_eq {a b : Apu} (h : a.stripFlag = b.stripFlag) :
    ∃ f, a = { b with should_clock := f } :=
  ⟨a.should_clock, eq_setFlag_of_stripFlag_eq h⟩

theorem spanTo_setMasterCpu (s : Apu) (x y t : ℕ) :
    ({ s with master_cycle := x, cpu_cycle := y } : Apu).spanTo t =
      { s.spanTo t with cpu_cycle := y } := rfl

theorem spanTo_setCpu (s : Apu) (y t : ℕ) :
    ({ s with cpu_cycle := y } : Apu).spanTo t = { s.spanTo t with cpu_cycle := y } := rfl

theorem spanTo_setFlag (s : Apu) (b : Bool) (t : ℕ) :
    ({ s with should_clock := b } : Apu).spanTo t = { s.spanTo t with should_clock := b } := rfl

end Apu

namespace LengthCounter

theorem reload_reload (lc : LengthCounter) : lc.reload.reload = lc.reload := by
  unfold reload
  rcases h : lc.pending with _ | v
  · rw [h]
  · rfl

end LengthCounter

namespace ChannelGen

theorem sweepStep_tc (ch : ChannelGen) : (sweepStep ch).timer_cycle = ch.timer_cycle := by
  simp only [sweepStep]
  split_ifs <;> rfl

theorem clock_quarter_frame_tc (ch : ChannelGen) :
    ch.clock_quarter_frame.timer_cycle = ch.timer_cycle := rfl

theorem clock_half_frame_tc (ch : ChannelGen) :
    ch.clock_half_frame.timer_cycle = ch.timer_cycle := sweepStep_tc _

end ChannelGen

namespace Apu

theorem applyFrameEvent_tcs (s : Apu) (ev : FrameType) :
    (applyFrameEvent s ev).pulse1.timer_cycle = s.pulse1.timer_cycle ∧
    (applyFrameEvent s ev).pulse2.timer_cycle = s.pulse2.timer_cycle ∧
    (applyFrameEvent s ev).triangle.timer_cycle = s.triangle.timer_cycle ∧
    (applyFrameEvent s ev).noise.timer_cycle = s.noise.timer_cycle := by
  cases ev <;>
    refine ⟨?_, ?_, ?_, ?_⟩ <;>
    first
      | rfl
      | exact ChannelGen.clock_half_frame_tc _

theorem foldl_applyFrameEvent_tcs (evs : List FrameType) (s : Apu) :
    (evs.foldl applyFrameEvent s).pulse1.timer_cycle = s.pulse1.timer_cycle ∧
    (evs.foldl applyFrameEvent s).pulse2.timer_cycle = s.pulse2.timer_cycle ∧
    (evs.foldl applyFrameEvent s).triangle.timer_cycle = s.triangle.timer_cycle ∧
    (evs.foldl applyFrameEvent s).noise.timer_cycle = s.noise.timer_cycle := by
  induction evs generalizing s with
  | nil => exact ⟨rfl, rfl, rfl, rfl⟩
  | cons e es ih =>
    rw [List.foldl_cons]
    obtain ⟨i1, i2, i3, i4⟩ := ih (applyFrameEvent s e)
    obtain ⟨a1, a2, a3, a4⟩ := applyFrameEvent_tcs s e
    exact ⟨i1.trans a1, i2.trans a2, i3.trans a3, i4.trans a4⟩

theorem applyFrameEvent_fields (s : Apu) (ev : FrameType) :
    (applyFrameEvent s ev).frame_counter = s.frame_counter ∧
    (applyFrameEvent s ev).cpu_cycle = s.cpu_cycle ∧
    (applyFrameEvent s ev).audio_samples = s.audio_samples ∧
    (applyFrameEvent s ev).channel_outputs = s.channel_outputs := by
  cases ev <;> exact ⟨rfl, rfl, rfl, rfl⟩

theorem foldl_applyFrameEvent_fields (evs : List FrameType) (s : Apu) :
    (evs.foldl applyFrameEvent s).frame_counter = s.frame_counter ∧
    (evs.foldl applyFrameEvent s).cpu_cycle = s.cpu_cycle ∧
    (evs.foldl applyFrameEvent s).audio_samples = s.audio_samples ∧
    (evs.foldl applyFrameEvent s).channel_outputs = s.channel_outputs := by
  induction evs generalizing s with
  | nil => exact ⟨rfl, rfl, rfl, rfl⟩
  | cons e es ih =>
    rw [List.foldl_cons]
    obtain ⟨i1, i2, i3, i4⟩ := ih (applyFrameEvent s e)
    obtain ⟨a1, a2, a3, a4⟩ := applyFrameEvent_fields s e
    exact ⟨i1.trans a1, i2.trans a2, i3.trans a3, i4.trans a4⟩

theorem clockUpdate_fields (s : Apu) (n : ℕ) :
    (clockUpdate s n).1.frame_counter = (s.frame_counter.clock_to_with n).fc ∧
    (clockUpdate s n).1.cpu_cycle = s.cpu_cycle ∧
    (clockUpdate s n).1.audio_samples = s.audio_samples := by
  simp only [clockUpdate]
  exact ⟨(foldl_applyFrameEvent_fields _ _).1, (foldl_applyFrameEvent_fields _ _).2.1,
    (foldl_applyFrameEvent_fields _ _).2.2.1⟩

theorem clockUpdate_align (s : Apu) (n : ℕ) (hal : s.Align) : (clockUpdate s n).1.Align := by
  obtain ⟨h1, h2, h3, h4, h5⟩ := hal
  obtain ⟨t1, t2, t3, t4⟩ := foldl_applyFrameEvent_tcs
    (s.frame_counter.clock_to_with n).events { s with
      frame_counter := (s.frame_counter.clock_to_with n).fc }
  have tdmc := foldl_applyFrameEvent_dmc { s with
      frame_counter := (s.frame_counter.clock_to_with n).fc }
    (s.frame_counter.clock_to_with n).events
  have tcyc := (foldl_applyFrameEvent_mc { s with
      frame_counter := (s.frame_counter.clock_to_with n).fc }
    (s.frame_counter.clock_to_with n).events).2
  simp only [Apu.Align, clockUpdate, ChannelGen.clock_to_output, Dmc.clock_to_output]
  refine ⟨?_, ?_, ?_, ?_, ?_⟩ <;>
    simp only [ChannelGen.clockOutAux_timer, Dmc.dmc_clockOutAux_timer, t1, t2, t3, t4,
      tdmc, tcyc] <;>
    omega

end Apu

namespace FrameCounter

theorem ntsc_mono (m : Mode) (st : ℕ) (h5 : st + 1 < 6) :
    (STEP_CYCLES_NTSC.getD m.idx []).getD st 0 <
      (STEP_CYCLES_NTSC.getD m.idx []).getD (st + 1) 0 := by
  have : st < 5 := by omega
  cases m <;> interval_cases st <;> decide

theorem ntsc_zero_pos (m : Mode) : 0 < (STEP_CYCLES_NTSC.getD m.idx []).getD 0 0 := by
  cases m <;> decide

theorem stepPhase_wf (fc : FrameCounter) (n : ℕ) (h : fc.Wf) : (stepPhase fc n).fc.Wf := by
  obtain ⟨h1, h2, h3⟩ := h
  have hmono := ntsc_mono fc.mode fc.step
  have hzero := ntsc_zero_pos fc.mode
  simp only [FrameCounter.threshold, h1] at h3 hmono ⊢
  simp only [stepPhase, FrameCounter.threshold, h1, apply_ite StepResult.fc, FrameCounter.Wf]
  split_ifs <;>
    simp_all [FrameCounter.threshold, h1] <;>
    omega

end FrameCounter

theorem FrameCounter.writePhase_wf (r : StepResult) (h : r.fc.Wf) : (writePhase r).fc.Wf := by
  obtain ⟨h1, h2, h3⟩ := h
  simp only [FrameCounter.writePhase]
  rcases hb : r.fc.write_buffer with _ | v
  · exact ⟨h1, h2, h3⟩
  · simp only []
    split_ifs <;>
      first
        | exact ⟨h1, h2, h3⟩
        | (refine ⟨?_, ?_, ?_⟩ <;>
            simp [FrameCounter.Wf, FrameCounter.threshold, h1] <;> decide)

theorem FrameCounter.blockPhase_wf (r : StepResult) (h : r.fc.Wf) : (blockPhase r).fc.Wf := by
  obtain ⟨h1, h2, h3⟩ := h
  rw [FrameCounter.blockPhase_eq]
  exact ⟨h1, h2, h3⟩

theorem FrameCounter.clock_to_with_wf (fc : FrameCounter) (n : ℕ) (h : fc.Wf) :
    (fc.clock_to_with n).fc.Wf :=
  FrameCounter.blockPhase_wf _ (FrameCounter.writePhase_wf _ (FrameCounter.stepPhase_wf fc n h))

theorem FrameCounter.stepPhase_pos (fc : FrameCounter) (n : ℕ) (h : fc.Wf) (hn : 1 ≤ n) :
    1 ≤ (stepPhase fc n).consumed := by
  obtain ⟨h1, h2, h3⟩ := h
  simp only [FrameCounter.stepPhase, apply_ite StepResult.consumed,
    apply_ite FrameCounter.cycle]
  split_ifs <;> simp_all <;> omega

theorem FrameCounter.clock_to_with_pos (fc : FrameCounter) (n : ℕ) (h : fc.Wf) (hn : 1 ≤ n) :
    1 ≤ (fc.clock_to_with n).consumed := by
  unfold FrameCounter.clock_to_with
  rw [FrameCounter.blockPhase_eq]
  simp only [(FrameCounter.writePhase_consumed _).1]
  exact FrameCounter.stepPhase_pos fc n ⟨h.1, h.2.1, h.2.2⟩ hn

namespace Apu

theorem clockUpdate_wf (s : Apu) (n : ℕ) (h : s.frame_counter.Wf) :
    (clockUpdate s n).1.frame_counter.Wf := by
  rw [(clockUpdate_fields s n).1]
  exact FrameCounter.clock_to_with_wf _ n h

theorem clockToGo_spec : ∀ (fuel : ℕ) (n : ℕ) (s : Apu), n ≤ fuel → s.frame_counter.Wf →
    s.Align →
    (clockToGo fuel s n).cycle = s.cycle + n ∧
    (clockToGo fuel s n).master_cycle = s.master_cycle ∧
    (clockToGo fuel s n).cpu_cycle = s.cpu_cycle ∧
    (clockToGo fuel s n).audio_samples = s.audio_samples ∧
    (clockToGo fuel s n).frame_counter.Wf ∧
    (clockToGo fuel s n).Align := by
  intro fuel
  induction fuel with
  | zero =>
    intro n s hle hwf hal
    rw [show n = 0 from by omega, clockToGo_zeroN]
    exact ⟨by omega, rfl, rfl, rfl, hwf, hal⟩
  | succ f ih =>
    intro n s hle hwf hal
    cases n with
    | zero =>
      rw [clockToGo_zeroN]
      exact ⟨by omega, rfl, rfl, rfl, hwf, hal⟩
    | succ n =>
      rw [show clockToGo (f + 1) s (n + 1) =
        clockToGo f (clockUpdate s (n + 1)).1 (clockUpdate s (n + 1)).2 from rfl]
      have hcon1 := FrameCounter.clock_to_with_pos s.frame_counter (n + 1) hwf (by omega)
      have hcon2 := FrameCounter.clock_to_with_consumed s.frame_counter (n + 1)
      have hmc := clockUpdate_mc s (n + 1)
      have hfields := clockUpdate_fields s (n + 1)
      have hwf' := clockUpdate_wf s (n + 1) hwf
      have hal' := clockUpdate_align s (n + 1) hal
      have hrem : (clockUpdate s (n + 1)).2 ≤ f := by
        rw [hmc.2.2, hcon2.2]; omega
      obtain ⟨g1, g2, g3, g4, g5, g6⟩ := ih (clockUpdate s (n + 1)).2 (clockUpdate s (n + 1)).1
        hrem hwf' hal'
      refine ⟨?_, ?_, ?_, ?_, g5, g6⟩
      · rw [g1, hmc.2.1, hmc.2.2, hcon2.2]; omega
      · rw [g2, hmc.1]
      · rw [g3, hfields.2.1]
      · rw [g4, hfields.2.2]

theorem clock_to_spec (s : Apu) (t : ℕ) (h : s.cycle ≤ t) (hwf : s.frame_counter.Wf)
    (hal : s.Align) :
    (s.clock_to t).cycle = t ∧
    (s.clock_to t).master_cycle = t ∧
    (s.clock_to t).cpu_cycle = s.cpu_cycle ∧
    (s.clock_to t).audio_samples = s.audio_samples ∧
    (s.clock_to t).frame_counter.Wf ∧
    (s.clock_to t).Align := by
  unfold clock_to
  dsimp only
  have hal' : ({ s with master_cycle := t } : Apu).Align := hal
  obtain ⟨g1, g2, g3, g4, g5, g6⟩ := clockToGo_spec (t - s.cycle) (t - s.cycle)
    { s with master_cycle := t } le_rfl hwf hal'
  exact ⟨by rw [g1]; show s.cycle + (t - s.cycle) = t; omega, g2, g3, g4, g5, g6⟩

end Apu

namespace Apu

theorem foldl_flagVarGen {α : Type} (f : Apu → α → Apu)
    (hf : ∀ (s : Apu) (x : α) (b : Bool),
      f { s with should_clock := b } x = { f s x with should_clock := b }) :
    ∀ (l : List α) (s : Apu) (b : Bool),
    l.foldl f { s with should_clock := b } = { l.foldl f s with should_clock := b } := by
  intro l
  induction l with
  | nil => intro s b; simp
  | cons x xs ih =>
    intro s b
    rw [List.foldl_cons, List.foldl_cons, hf, ih]

theorem foldl_presGen {α β : Type} (f : Apu → α → Apu) (g : Apu → β)
    (hf : ∀ (s : Apu) (x : α), g (f s x) = g s) :
    ∀ (l : List α) (s : Apu), g (l.foldl f s) = g s := by
  intro l
  induction l with
  | nil => intro s; rfl
  | cons x xs ih =>
    intro s
    rw [List.foldl_cons, ih, hf]

theorem process_outputs_flag (s : Apu) (b : Bool) :
    process_outputs { s with should_clock := b } =
      { process_outputs s with should_clock := b } := by
  unfold process_outputs
  split_ifs with h
  · rfl
  · exact foldl_flagVarGen _ (by intro s x b; dsimp only; split <;> rfl) _ s b

theorem process_outputs_core (s : Apu) :
    (process_outputs s).frame_counter = s.frame_counter ∧
    (process_outputs s).master_cycle = s.master_cycle ∧
    (process_outputs s).cycle = s.cycle ∧
    (process_outputs s).cpu_cycle = s.cpu_cycle := by
  unfold process_outputs
  split_ifs with h
  · exact ⟨rfl, rfl, rfl, rfl⟩
  · refine ⟨?_, ?_, ?_, ?_⟩ <;>
      exact foldl_presGen _ _ (by intro s x; dsimp only; split <;> rfl) _ s

theorem clock_flush_flag (s : Apu) (b : Bool) :
    clock_flush { s with should_clock := b } = { clock_flush s with should_clock := b } := by
  unfold clock_flush
  dsimp only
  rw [clock_to_flag, process_outputs_flag]

theorem clock_flush_congr {a b : Apu}
    (h : a.clock_to a.master_cycle = b.clock_to b.master_cycle) :
    a.clock_flush = b.clock_flush := by
  unfold clock_flush
  rw [h]

theorem clock_flush_zeros (s : Apu) :
    (clock_flush s).master_cycle = 0 ∧ (clock_flush s).cycle = 0 ∧ (clock_flush s).Align := by
  exact ⟨rfl, rfl, rfl, rfl, rfl, rfl, rfl⟩

theorem clock_flush_fc (s : Apu) :
    (clock_flush s).frame_counter = (s.clock_to s.master_cycle).frame_counter := by
  unfold clock_flush
  dsimp only
  exact (process_outputs_core _).1

end Apu

namespace ChannelGen

theorem iterate_output_succ (k : ℕ) (ch : ChannelGen) :
    (stepCycle^[k] ({ ch.stepCycle with timer_cycle := ch.timer_cycle + 1 } :
      ChannelGen)).output = (stepCycle^[k + 1] ch).output := by
  rw [iterate_stepCycle_tc, output_tc, ← Function.iterate_succ_apply]

theorem clockOutAux_snd (n : ℕ) : ∀ (off : ℕ), off < 6 → ∀ (ch : ChannelGen) (buf : ℕ → ℚ)
    (i : ℕ),
    (clockOutAux n off ch buf).2 i =
      if i % 6 = off ∧ ch.timer_cycle ≤ i / 6 ∧ i / 6 < ch.timer_cycle + n then
        (stepCycle^[i / 6 - ch.timer_cycle] ch).output
      else buf i := by
  induction n with
  | zero =>
    intro off hoff ch buf i
    rw [if_neg (by omega)]
    rfl
  | succ n ih =>
    intro off hoff ch buf i
    show (clockOutAux n off _ _).2 i = _
    rw [ih off hoff]
    simp only [show ({ ch.stepCycle with timer_cycle := ch.timer_cycle + 1 } :
      ChannelGen).timer_cycle = ch.timer_cycle + 1 from rfl]
    have hdm := Nat.div_add_mod i 6
    have hmlt : i % 6 < 6 := Nat.mod_lt _ (by omega)
    by_cases h1 : i % 6 = off ∧ ch.timer_cycle + 1 ≤ i / 6 ∧ i / 6 < ch.timer_cycle + 1 + n
    · rw [if_pos h1, iterate_output_succ,
        show i / 6 - (ch.timer_cycle + 1) + 1 = i / 6 - ch.timer_cycle from by omega,
        if_pos (show i % 6 = off ∧ ch.timer_cycle ≤ i / 6 ∧
          i / 6 < ch.timer_cycle + (n + 1) from by omega)]
    · rw [if_neg h1]
      by_cases h2 : i = 6 * ch.timer_cycle + off
      · rw [h2, Function.update_same]
        rw [if_pos (show (6 * ch.timer_cycle + off) % 6 = off ∧
            ch.timer_cycle ≤ (6 * ch.timer_cycle + off) / 6 ∧
            (6 * ch.timer_cycle + off) / 6 < ch.timer_cycle + (n + 1) from by omega)]
        rw [show (6 * ch.timer_cycle + off) / 6 - ch.timer_cycle = 0 from by omega]
        rfl
      · rw [Function.update_noteq h2]
        rw [if_neg (by intro hc; exact h2 (by omega))]

end ChannelGen

namespace Dmc

theorem dmc_iterate_output_succ (k : ℕ) (d : Dmc) :
    (stepCycle^[k] ({ d.stepCycle with timer_cycle := d.timer_cycle + 1 } :
      Dmc)).output = (stepCycle^[k + 1] d).output := by
  rw [dmc_iterate_stepCycle_tc, dmc_output_tc, ← Function.iterate_succ_apply]

theorem dmc_clockOutAux_snd (n : ℕ) : ∀ (d : Dmc) (buf : ℕ → ℚ) (i : ℕ),
    (clockOutAux n d buf).2 i =
      if i % 6 = 4 ∧ d.timer_cycle ≤ i / 6 ∧ i / 6 < d.timer_cycle + n then
        (stepCycle^[i / 6 - d.timer_cycle] d).output
      else buf i := by
  induction n with
  | zero =>
    intro d buf i
    rw [if_neg (by omega)]
    rfl
  | succ n ih =>
    intro d buf i
    show (clockOutAux n _ _).2 i = _
    rw [ih]
    simp only [show ({ d.stepCycle with timer_cycle := d.timer_cycle + 1 } :
      Dmc).timer_cycle = d.timer_cycle + 1 from rfl]
    have hdm := Nat.div_add_mod i 6
    have hmlt : i % 6 < 6 := Nat.mod_lt _ (by omega)
    by_cases h1 : i % 6 = 4 ∧ d.timer_cycle + 1 ≤ i / 6 ∧ i / 6 < d.timer_cycle + 1 + n
    · rw [if_pos h1, dmc_iterate_output_succ,
        show i / 6 - (d.timer_cycle + 1) + 1 = i / 6 - d.timer_cycle from by omega,
        if_pos (show i % 6 = 4 ∧ d.timer_cycle ≤ i / 6 ∧
          i / 6 < d.timer_cycle + (n + 1) from by omega)]
    · rw [if_neg h1]
      by_cases h2 : i = 6 * d.timer_cycle + 4
      · rw [h2, Function.update_same]
        rw [if_pos (show (6 * d.timer_cycle + 4) % 6 = 4 ∧
            d.timer_cycle ≤ (6 * d.timer_cycle + 4) / 6 ∧
            (6 * d.timer_cycle + 4) / 6 < d.timer_cycle + (n + 1) from by omega)]
        rw [show (6 * d.timer_cycle + 4) / 6 - d.timer_cycle = 0 from by omega]
        rfl
      · rw [Function.update_noteq h2]
        rw [if_neg (by intro hc; exact h2 (by omega))]

end Dmc

namespace ChannelGen

theorem stepCycle_length (ch : ChannelGen) : ch.stepCycle.length = ch.length := by
  unfold stepCycle
  split_ifs <;> rfl

theorem iterate_length (n : ℕ) (ch : ChannelGen) : (stepCycle^[n] ch).length = ch.length := by
  induction n generalizing ch with
  | zero => rfl
  | succ n ih => rw [Function.iterate_succ_apply, ih, stepCycle_length]

theorem setLength_self (ch : ChannelGen) : ({ ch with length := ch.length } : ChannelGen) = ch :=
  rfl

end ChannelGen

namespace Apu

theorem spanTo_proj (s : Apu) (t : ℕ) :
    (s.spanTo t).master_cycle = t ∧ (s.spanTo t).cycle = t ∧
    (s.spanTo t).frame_counter =
      { s.frame_counter with cycle := s.frame_counter.cycle + (t - s.cycle) } ∧
    (s.spanTo t).pulse1 = { ChannelGen.stepCycle^[t - s.pulse1.timer_cycle]
        ({ s.pulse1 with length := s.pulse1.length.reload }) with
        timer_cycle := s.pulse1.timer_cycle + (t - s.pulse1.timer_cycle) } ∧
    (s.spanTo t).pulse2 = { ChannelGen.stepCycle^[t - s.pulse2.timer_cycle]
        ({ s.pulse2 with length := s.pulse2.length.reload }) with
        timer_cycle := s.pulse2.timer_cycle + (t - s.pulse2.timer_cycle) } ∧
    (s.spanTo t).triangle = { ChannelGen.stepCycle^[t - s.triangle.timer_cycle]
        ({ s.triangle with length := s.triangle.length.reload }) with
        timer_cycle := s.triangle.timer_cycle + (t - s.triangle.timer_cycle) } ∧
    (s.spanTo t).noise = { ChannelGen.stepCycle^[t - s.noise.timer_cycle]
        ({ s.noise with length := s.noise.length.reload }) with
        timer_cycle := s.noise.timer_cycle + (t - s.noise.timer_cycle) } ∧
    (s.spanTo t).dmc = { Dmc.stepCycle^[t - s.dmc.timer_cycle] s.dmc with
        timer_cycle := s.dmc.timer_cycle + (t - s.dmc.timer_cycle) } := by
  refine ⟨rfl, rfl, rfl, ?_, ?_, ?_, ?_, ?_⟩ <;>
    simp only [Apu.spanTo, ChannelGen.clock_to_output, Dmc.clock_to_output,
      ChannelGen.clockOutAux_fst, Dmc.dmc_clockOutAux_fst]

theorem spanTo_align (s : Apu) (t : ℕ) (hal : s.Align) (h : s.cycle ≤ t) :
    (s.spanTo t).Align := by
  obtain ⟨a1, a2, a3, a4, a5⟩ := hal
  obtain ⟨p0, p1, p2, p3, p4, p5, p6, p7⟩ := spanTo_proj s t
  refine ⟨?_, ?_, ?_, ?_, ?_⟩ <;>
    simp only [p1, p3, p4, p5, p6, p7, a1, a2, a3, a4, a5] <;>
    omega

end Apu

namespace Apu

set_option maxHeartbeats 1600000 in
theorem spanTo_outputs (s : Apu) (t : ℕ) (hal : s.Align) (h : s.cycle ≤ t) (i : ℕ) :
    (s.spanTo t).channel_outputs i =
      if i % 6 < 5 ∧ s.cycle ≤ i / 6 ∧ i / 6 < t then s.chanOut (i % 6) (i / 6 - s.cycle)
      else s.channel_outputs i := by
  obtain ⟨a1, a2, a3, a4, a5⟩ := hal
  obtain ⟨k, r, hi, hrlt⟩ : ∃ k r, i = 6 * k + r ∧ r < 6 :=
    ⟨i / 6, i % 6, by omega, by omega⟩
  subst hi
  simp only [Apu.spanTo, ChannelGen.clock_to_output, Dmc.clock_to_output,
    show ∀ l : LengthCounter, ∀ ch : ChannelGen,
      ({ ch with length := l } : ChannelGen).timer_cycle = ch.timer_cycle from fun _ _ => rfl,
    a1, a2, a3, a4, a5]
  rw [Dmc.dmc_clockOutAux_snd, ChannelGen.clockOutAux_snd _ 3 (by omega),
    ChannelGen.clockOutAux_snd _ 2 (by omega), ChannelGen.clockOutAux_snd _ 1 (by omega),
    ChannelGen.clockOutAux_snd _ 0 (by omega)]
  simp only [show (6 * k + r) / 6 = k from by omega, show (6 * k + r) % 6 = r from by omega,
    show ∀ l : LengthCounter, ∀ ch : ChannelGen,
      ({ ch with length := l } : ChannelGen).timer_cycle = ch.timer_cycle from fun _ _ => rfl,
    a1, a2, a3, a4, a5]
  interval_cases r <;>
    simp [Apu.chanOut, a1, a2, a3, a4, a5] <;>
    split_ifs <;>
    first | rfl | omega

end Apu

namespace ChannelGen

theorem setLength_eta (ch : ChannelGen) (l : LengthCounter) (h : ch.length = l) :
    ({ ch with length := l } : ChannelGen) = ch := by
  subst h
  rfl

theorem reload_collapse (Q : ChannelGen) (hQ : Q.length.reload = Q.length) (m y : ℕ) :
    ({ ({ stepCycle^[m] Q with timer_cycle := y } : ChannelGen) with
        length := ({ stepCycle^[m] Q with timer_cycle := y } : ChannelGen).length.reload } :
      ChannelGen) = { stepCycle^[m] Q with timer_cycle := y } := by
  apply setLength_eta
  show (stepCycle^[m] Q).length = ((stepCycle^[m] Q).length : LengthCounter).reload
  rw [iterate_length, hQ]

theorem advance_comp (Q : ChannelGen) (hQ : Q.length.reload = Q.length) (m n w y z : ℕ)
    (hw : w = n + m) :
    ({ stepCycle^[n]
        ({ ({ stepCycle^[m] Q with timer_cycle := y } : ChannelGen) with
          length := ({ stepCycle^[m] Q with timer_cycle := y } : ChannelGen).length.reload } :
        ChannelGen) with timer_cycle := z } : ChannelGen)
      = { stepCycle^[w] Q with timer_cycle := z } := by
  rw [reload_collapse Q hQ m y, iterate_stepCycle_tc, hw, Function.iterate_add_apply]

theorem advance_output (Q : ChannelGen) (hQ : Q.length.reload = Q.length) (m y j : ℕ) :
    (stepCycle^[j]
      ({ ({ stepCycle^[m] Q with timer_cycle := y } : ChannelGen) with
        length := ({ stepCycle^[m] Q with timer_cycle := y } : ChannelGen).length.reload } :
      ChannelGen)).output = (stepCycle^[j + m] Q).output := by
  rw [reload_collapse Q hQ m y, iterate_stepCycle_tc, output_tc, Function.iterate_add_apply]

end ChannelGen

namespace Dmc

theorem dmc_advance_comp (d : Dmc) (m n w y z : ℕ) (hw : w = n + m) :
    ({ stepCycle^[n] ({ stepCycle^[m] d with timer_cycle := y } : Dmc) with
        timer_cycle := z } : Dmc) = { stepCycle^[w] d with timer_cycle := z } := by
  rw [dmc_iterate_stepCycle_tc, hw, Function.iterate_add_apply]

theorem dmc_advance_output (d : Dmc) (m y j : ℕ) :
    (stepCycle^[j] ({ stepCycle^[m] d with timer_cycle := y } : Dmc)).output =
      (stepCycle^[j + m] d).output := by
  rw [dmc_iterate_stepCycle_tc, dmc_output_tc, Function.iterate_add_apply]

end Dmc

namespace Apu

theorem reloaded_reload (lc : LengthCounter) : lc.reload.reload = lc.reload :=
  LengthCounter.reload_reload lc

theorem chanOut_spanTo (s : Apu) (t : ℕ) (hal : s.Align) (h : s.cycle ≤ t) (r j : ℕ) :
    (s.spanTo t).chanOut r j = s.chanOut r (j + (t - s.cycle)) := by
  obtain ⟨p0, p1, p2, p3, p4, p5, p6, p7⟩ := spanTo_proj s t
  obtain ⟨a1, a2, a3, a4, a5⟩ := hal
  simp only [Apu.chanOut, p3, p4, p5, p6, p7, a1, a2, a3, a4, a5]
  split_ifs <;>
    first
      | exact ChannelGen.advance_output _ (reloaded_reload _) _ _ _
      | exact Dmc.dmc_advance_output _ _ _ _

end Apu

namespace Apu

set_option maxHeartbeats 1600000 in
theorem spanTo_comp (s : Apu) (t u : ℕ) (hal : s.Align) (h1 : s.cycle ≤ t) (h2 : t ≤ u) :
    (s.spanTo t).spanTo u = s.spanTo u := by
  obtain ⟨q0, q1, q2, q3, q4, q5, q6, q7⟩ := spanTo_proj (s.spanTo t) u
  obtain ⟨p0, p1, p2, p3, p4, p5, p6, p7⟩ := spanTo_proj s t
  obtain ⟨r0, r1, r2, r3, r4, r5, r6, r7⟩ := spanTo_proj s u
  have halT := spanTo_align s t hal h1
  obtain ⟨a1, a2, a3, a4, a5⟩ := hal
  have hct : s.cycle + (t - s.cycle) = t := by omega
  have hT : (s.spanTo t).cycle ≤ u := by rw [p1]; omega
  apply Apu.ext
  case frame_counter =>
    rw [q2, r2, p2, p1]
    show ({ s.frame_counter with
      cycle := s.frame_counter.cycle + (t - s.cycle) + (u - t) } : FrameCounter) = _
    rw [show s.frame_counter.cycle + (t - s.cycle) + (u - t) =
      s.frame_counter.cycle + (u - s.cycle) from by omega]
  case master_cycle => rw [q0, r0]
  case cpu_cycle => rfl
  case cycle => rw [q1, r1]
  case clock_rate => rfl
  case region => rfl
  case pulse1 =>
    rw [q3, r3, p3]
    simp only [a1, hct]
    rw [show t + (u - t) = s.cycle + (u - s.cycle) from by omega]
    exact ChannelGen.advance_comp _ (reloaded_reload _) _ _ _ _ _ (by omega)
  case pulse2 =>
    rw [q4, r4, p4]
    simp only [a2, hct]
    rw [show t + (u - t) = s.cycle + (u - s.cycle) from by omega]
    exact ChannelGen.advance_comp _ (reloaded_reload _) _ _ _ _ _ (by omega)
  case triangle =>
    rw [q5, r5, p5]
    simp only [a3, hct]
    rw [show t + (u - t) = s.cycle + (u - s.cycle) from by omega]
    exact ChannelGen.advance_comp _ (reloaded_reload _) _ _ _ _ _ (by omega)
  case noise =>
    rw [q6, r6, p6]
    simp only [a4, hct]
    rw [show t + (u - t) = s.cycle + (u - s.cycle) from by omega]
    exact ChannelGen.advance_comp _ (reloaded_reload _) _ _ _ _ _ (by omega)
  case dmc =>
    rw [q7, r7, p7]
    simp only [a5, hct]
    rw [show t + (u - t) = s.cycle + (u - s.cycle) from by omega]
    exact Dmc.dmc_advance_comp _ _ _ _ _ _ (by omega)
  case filter_chain => rfl
  case channel_outputs =>
    funext i
    rw [spanTo_outputs (s.spanTo t) u halT hT i, spanTo_outputs s t ⟨a1, a2, a3, a4, a5⟩ h1 i,
      spanTo_outputs s u ⟨a1, a2, a3, a4, a5⟩ (h1.trans h2) i]
    simp only [p1]
    rw [chanOut_spanTo s t ⟨a1, a2, a3, a4, a5⟩ h1]
    split_ifs <;>
      first
        | rfl
        | omega
        | rw [show i / 6 - t + (t - s.cycle) = i / 6 - s.cycle from by omega]
  case audio_samples => rfl
  case sample_period => rfl
  case sample_counter => rfl
  case mapper_silenced => rfl
  case skip_mixing => rfl
  case should_clock => rfl

end Apu

namespace Apu

theorem catchup_step (L : Apu) (y : ℕ) (hal : L.Align) (h1 : L.cycle ≤ L.master_cycle)
    (hmar : L.Margin) :
    ({ L.clock_to L.master_cycle with cpu_cycle := y } : Apu).clock_to (L.master_cycle + 1) =
      ({ L with cpu_cycle := y } : Apu).clock_to (L.master_cycle + 1) := by
  rcases Nat.lt_or_ge L.cycle L.master_cycle with hlt | hge
  · obtain ⟨hb, hk, hm⟩ := hmar hlt
    rw [clock_to_span L L.master_cycle hlt hb hk (by omega)]
    rw [← spanTo_setCpu]
    rw [clock_to_span (({ L with cpu_cycle := y } : Apu).spanTo L.master_cycle)
      (L.master_cycle + 1)
      (by show L.master_cycle < L.master_cycle + 1; omega)
      hb hk
      (by show L.frame_counter.cycle + (L.master_cycle - L.cycle) +
            (L.master_cycle + 1 - L.master_cycle) < L.frame_counter.threshold
          omega)]
    rw [spanTo_comp ({ L with cpu_cycle := y } : Apu) L.master_cycle (L.master_cycle + 1)
      hal (by show L.cycle ≤ L.master_cycle; omega) (by omega)]
    rw [clock_to_span ({ L with cpu_cycle := y } : Apu) (L.master_cycle + 1)
      (by show L.cycle < L.master_cycle + 1; omega) hb hk
      (by show L.frame_counter.cycle + (L.master_cycle + 1 - L.cycle) <
            L.frame_counter.threshold
          omega)]
  · have hcy : L.cycle = L.master_cycle := by omega
    rw [clock_to_self L L.master_cycle hcy rfl]

end Apu

theorem FrameCounter.write_wf (fc : FrameCounter) (v c : ℕ) (h : fc.Wf) : (fc.write v c).Wf := by
  obtain ⟨h1, h2, h3⟩ := h
  unfold FrameCounter.write
  dsimp only
  split_ifs <;> exact ⟨h1, h2, h3⟩

namespace Apu

theorem applyWrite_inv (s : Apu) (w : ApuAction) (hw : w ≠ ApuAction.clock)
    (h : s.cycle ≤ s.master_cycle) (hwf : s.frame_counter.Wf) (hal : s.Align) :
    (s.applyWrite w).cycle = s.master_cycle ∧
    (s.applyWrite w).master_cycle = s.master_cycle ∧
    (s.applyWrite w).frame_counter.Wf ∧
    (s.applyWrite w).Align := by
  obtain ⟨g1, g2, g3, g4, g5, g6⟩ := clock_to_spec s s.master_cycle h hwf hal
  obtain ⟨l1, l2, l3, l4, l5⟩ := g6
  cases w with
  | clock => exact absurd rfl hw
  | ctrl c v =>
    unfold applyWrite write_ctrl
    dsimp only
    cases c <;> refine ⟨g1, g2, g5, ?_, ?_, ?_, ?_, ?_⟩ <;>
      simp [ChannelGen.write_ctrl, l1, l2, l3, l4, l5]
  | sweep c v =>
    unfold applyWrite write_sweep
    dsimp only
    cases c <;> refine ⟨g1, g2, g5, ?_, ?_, ?_, ?_, ?_⟩ <;>
      simp [ChannelGen.write_sweep, l1, l2, l3, l4, l5]
  | timerLo c v =>
    unfold applyWrite write_timer_lo
    dsimp only
    cases c <;> refine ⟨g1, g2, g5, ?_, ?_, ?_, ?_, ?_⟩ <;>
      simp [ChannelGen.write_timer_lo, ChannelGen.write_timer_noise, Dmc.write_timer,
        l1, l2, l3, l4, l5]
  | timerHi c v =>
    unfold applyWrite write_timer_hi
    dsimp only
    cases c <;> refine ⟨g1, g2, g5, ?_, ?_, ?_, ?_, ?_⟩ <;>
      simp [ChannelGen.write_timer_hi, l1, l2, l3, l4, l5]
  | linear v =>
    unfold applyWrite write_linear_counter
    dsimp only
    refine ⟨g1, g2, g5, ?_, ?_, ?_, ?_, ?_⟩ <;>
      simp [ChannelGen.write_linear_counter, l1, l2, l3, l4, l5]
  | length c v =>
    unfold applyWrite write_length
    dsimp only
    cases c <;> refine ⟨g1, g2, g5, ?_, ?_, ?_, ?_, ?_⟩ <;>
      simp [ChannelGen.write_length_noise, Dmc.write_length, l1, l2, l3, l4, l5]
  | dmcOutput v =>
    unfold applyWrite write_dmc_output
    dsimp only
    refine ⟨g1, g2, g5, ?_, ?_, ?_, ?_, ?_⟩ <;>
      simp [Dmc.write_output_in, l1, l2, l3, l4, l5]
  | dmcAddr v =>
    unfold applyWrite write_dmc_addr
    dsimp only
    refine ⟨g1, g2, g5, ?_, ?_, ?_, ?_, ?_⟩ <;>
      simp [Dmc.write_addr, l1, l2, l3, l4, l5]
  | status v =>
    unfold applyWrite write_status
    dsimp only
    refine ⟨g1, g2, g5, ?_, ?_, ?_, ?_, ?_⟩ <;>
      simp [ChannelGen.set_enabled, Dmc.set_enabled, LengthCounter.set_enabled,
        l1, l2, l3, l4, l5] <;>
      split_ifs <;>
      simp [l1, l2, l3, l4, l5]
  | frame v =>
    unfold applyWrite write_frame_counter
    dsimp only
    exact ⟨g1, g2, FrameCounter.write_wf _ _ _ g5, l1, l2, l3, l4, l5⟩

end Apu

namespace Apu

theorem applyWrite_flag (s : Apu) (b : Bool) (w : ApuAction) :
    stripFlag (applyWrite ({ s with should_clock := b } : Apu) w) =
      stripFlag (applyWrite s w) := by
  cases w with
  | clock => exact stripFlag_setFlag s b
  | ctrl c v =>
    unfold applyWrite write_ctrl
    dsimp only
    rw [clock_to_flag]
    try generalize s.clock_to s.master_cycle = C
    try cases c <;> rfl
    try rfl
  | sweep c v =>
    unfold applyWrite write_sweep
    dsimp only
    rw [clock_to_flag]
    try generalize s.clock_to s.master_cycle = C
    try cases c <;> rfl
    try rfl
  | timerLo c v =>
    unfold applyWrite write_timer_lo
    dsimp only
    rw [clock_to_flag]
    try generalize s.clock_to s.master_cycle = C
    try cases c <;> rfl
    try rfl
  | timerHi c v =>
    unfold applyWrite write_timer_hi
    dsimp only
    rw [clock_to_flag]
    try generalize s.clock_to s.master_cycle = C
    try cases c <;> rfl
    try rfl
  | linear v =>
    unfold applyWrite write_linear_counter
    dsimp only
    rw [clock_to_flag]
    try generalize s.clock_to s.master_cycle = C
    try rfl
  | length c v =>
    unfold applyWrite write_length
    dsimp only
    rw [clock_to_flag]
    try generalize s.clock_to s.master_cycle = C
    try cases c <;> rfl
    try rfl
  | dmcOutput v =>
    unfold applyWrite write_dmc_output
    dsimp only
    rw [clock_to_flag]
    try generalize s.clock_to s.master_cycle = C
    try rfl
  | dmcAddr v =>
    unfold applyWrite write_dmc_addr
    dsimp only
    rw [clock_to_flag]
    try generalize s.clock_to s.master_cycle = C
    try rfl
  | status v =>
    unfold applyWrite write_status
    dsimp only
    rw [clock_to_flag]
    try generalize s.clock_to s.master_cycle = C
    try rfl
  | frame v =>
    unfold applyWrite write_frame_counter
    dsimp only
    rw [clock_to_flag]
    try generalize s.clock_to s.master_cycle = C
    try rfl

theorem applyWrite_stripFlag {a b : Apu} (h : stripFlag a = stripFlag b) (w : ApuAction) :
    stripFlag (a.applyWrite w) = stripFlag (b.applyWrite w) := by
  obtain ⟨f, rfl⟩ := exists_setFlag_of_stripFlag_eq h
  exact applyWrite_flag b f w

theorem applyWrite_absorb (s : Apu) (w : ApuAction) (hw : w ≠ ApuAction.clock)
    (h : s.cycle ≤ s.master_cycle) (hwf : s.frame_counter.Wf) (hal : s.Align) :
    (s.clock_to s.master_cycle).applyWrite w = s.applyWrite w := by
  obtain ⟨g1, g2, g3, g4, g5, g6⟩ := clock_to_spec s s.master_cycle h hwf hal
  have habs : (s.clock_to s.master_cycle).clock_to (s.clock_to s.master_cycle).master_cycle =
      s.clock_to s.master_cycle :=
    clock_to_self _ _ (by rw [g1, g2]) rfl
  cases w with
  | clock => exact absurd rfl hw
  | ctrl c v =>
    unfold applyWrite write_ctrl
    dsimp only
    rw [habs, g2]
  | sweep c v =>
    unfold applyWrite write_sweep
    dsimp only
    rw [habs, g2]
  | timerLo c v =>
    unfold applyWrite write_timer_lo
    dsimp only
    rw [habs, g2]
  | timerHi c v =>
    unfold applyWrite write_timer_hi
    dsimp only
    rw [habs, g2]
  | linear v =>
    unfold applyWrite write_linear_counter
    dsimp only
    rw [habs, g2]
  | length c v =>
    unfold applyWrite write_length
    dsimp only
    rw [habs, g2]
  | dmcOutput v =>
    unfold applyWrite write_dmc_output
    dsimp only
    rw [habs, g2]
  | dmcAddr v =>
    unfold applyWrite write_dmc_addr
    dsimp only
    rw [habs, g2]
  | status v =>
    unfold applyWrite write_status
    dsimp only
    rw [habs, g2]
  | frame v =>
    unfold applyWrite write_frame_counter
    dsimp only
    rw [habs, g2]

end Apu

theorem FrameCounter.should_clock_false {fc : FrameCounter} {cycles : ℕ}
    (h : fc.should_clock cycles = false) :
    fc.write_buffer = none ∧ fc.block_counter = 0 ∧ fc.cycle + cycles < fc.threshold - 1 := by
  unfold FrameCounter.should_clock at h
  simp only [Bool.or_eq_false_iff, decide_eq_false_iff_not, Nat.not_lt] at h
  refine ⟨?_, by omega, by omega⟩
  rcases hb : fc.write_buffer with _ | v
  · rfl
  · rw [hb] at h
    simp at h

namespace Apu

theorem setFlag_bump (s : Apu) (f : Bool) (x y : ℕ) :
    ({ ({ s with should_clock := f } : Apu) with master_cycle := x, cpu_cycle := y } : Apu) =
      { ({ s with master_cycle := x, cpu_cycle := y } : Apu) with should_clock := f } := rfl

theorem clock_to_bump (s : Apu) (x y t : ℕ) :
    ({ s with master_cycle := x, cpu_cycle := y } : Apu).clock_to t =
      ({ s with cpu_cycle := y } : Apu).clock_to t := rfl

theorem inv_write (E L : Apu) (w : ApuAction) (hw : w ≠ ApuAction.clock) (h : Inv E L) :
    Inv (E.applyWrite w) (L.applyWrite w) := by
  obtain ⟨hE, hLc, hM, hEq, hWf, hAl, hMar⟩ := h
  obtain ⟨i1, i2, i3, i4⟩ := applyWrite_inv L w hw hLc hWf hAl
  have habs : (L.clock_to L.master_cycle).applyWrite w = L.applyWrite w :=
    applyWrite_absorb L w hw hLc hWf hAl
  have hEq' : stripFlag (E.applyWrite w) = stripFlag (L.applyWrite w) :=
    (applyWrite_stripFlag hEq w).trans (by rw [habs])
  have hself : (L.applyWrite w).clock_to (L.applyWrite w).master_cycle = L.applyWrite w :=
    clock_to_self _ _ (i1.trans i2.symm) rfl
  have hfields := (stripFlag_eq_iff _ _).1 hEq'
  refine ⟨?_, ?_, ?_, ?_, i3, i4, ?_⟩
  · rw [hfields.2.2.2.1, hfields.2.1, i1, i2]
  · rw [i1, i2]
  · rw [hfields.2.1, i2]
  · rw [hself]
    exact hEq'
  · intro hlt
    rw [i1, i2] at hlt
    exact absurd hlt (lt_irrefl _)

end Apu

namespace Apu

set_option maxHeartbeats 1600000 in
theorem inv_clock (H : DmcHooks) (E L : Apu) (h : Inv E L) :
    Inv E.clock_eager (L.clock_lazy H) := by
  obtain ⟨hE, hLc, hM, hEq, hWf, hAl, hMar⟩ := h
  obtain ⟨g1, g2, g3, g4, g5, g6⟩ := clock_to_spec L L.master_cycle hLc hWf hAl
  obtain ⟨f, hEf⟩ := exists_setFlag_of_stripFlag_eq hEq
  subst hEf
  unfold clock_eager clock_lazy should_clock_fn
  dsimp only
  rw [setFlag_bump, g2, g3]
  obtain ⟨s1, s2, s3, s4, s5, s6⟩ := clock_to_spec ({ L with cpu_cycle := L.cpu_cycle + 1 } : Apu)
    (L.master_cycle + 1) (by show L.cycle ≤ L.master_cycle + 1; omega) hWf hAl
  generalize hC : L.clock_to L.master_cycle = C at g1 g2 g3 g4 g5 g6 ⊢
  have hcatch : ({ C with
      master_cycle := L.master_cycle + 1
      cpu_cycle := L.cpu_cycle + 1 } : Apu).clock_to (L.master_cycle + 1) =
      ({ L with cpu_cycle := L.cpu_cycle + 1 } : Apu).clock_to (L.master_cycle + 1) := by
    rw [clock_to_bump, ← hC]
    exact catchup_step L (L.cpu_cycle + 1) hAl hLc hMar
  have hLbump : ({ L with
      master_cycle := L.master_cycle + 1
      cpu_cycle := L.cpu_cycle + 1 } : Apu).clock_to (L.master_cycle + 1) =
      ({ L with cpu_cycle := L.cpu_cycle + 1 } : Apu).clock_to (L.master_cycle + 1) := by
    rw [clock_to_bump]
  by_cases hcs : L.master_cycle + 1 = CYCLE_SIZE - 1
  · rw [if_pos hcs, if_pos hcs]
    have hflush : ({ C with
        master_cycle := L.master_cycle + 1
        cpu_cycle := L.cpu_cycle + 1 } : Apu).clock_flush =
        ({ L with
          master_cycle := L.master_cycle + 1
          cpu_cycle := L.cpu_cycle + 1 } : Apu).clock_flush := by
      apply clock_flush_congr
      show ({ C with
        master_cycle := L.master_cycle + 1
        cpu_cycle := L.cpu_cycle + 1 } : Apu).clock_to (L.master_cycle + 1) =
        ({ L with
          master_cycle := L.master_cycle + 1
          cpu_cycle := L.cpu_cycle + 1 } : Apu).clock_to (L.master_cycle + 1)
      rw [hcatch, hLbump]
    have hEmain : ({ ({ C with
        master_cycle := L.master_cycle + 1
        cpu_cycle := L.cpu_cycle + 1 } : Apu) with should_clock := f } : Apu).clock_flush =
        { ({ L with
          master_cycle := L.master_cycle + 1
          cpu_cycle := L.cpu_cycle + 1 } : Apu).clock_flush with should_clock := f } :=
      (clock_flush_flag ({ C with
        master_cycle := L.master_cycle + 1
        cpu_cycle := L.cpu_cycle + 1 } : Apu) f).trans (by rw [hflush])
    rw [hEmain]
    obtain ⟨z1, z2, z3⟩ := clock_flush_zeros
      ({ L with
        master_cycle := L.master_cycle + 1
        cpu_cycle := L.cpu_cycle + 1 } : Apu)
    have hwfF : ({ L with
        master_cycle := L.master_cycle + 1
        cpu_cycle := L.cpu_cycle + 1 } : Apu).clock_flush.frame_counter.Wf := by
      rw [clock_flush_fc]
      show (({ L with
        master_cycle := L.master_cycle + 1
        cpu_cycle := L.cpu_cycle + 1 } : Apu).clock_to (L.master_cycle + 1)).frame_counter.Wf
      rw [hLbump]
      exact s5
    dsimp only
    refine ⟨?_, ?_, ?_, ?_, hwfF, z3, ?_⟩
    · rw [z1, z2]
    · omega
    · rfl
    · rw [clock_to_self _ _ (z2.trans z1.symm) rfl]
      exact stripFlag_setFlag _ f
    · intro hlt
      rw [z1, z2] at hlt
      exact absurd hlt (lt_irrefl _)
  · rw [if_neg hcs, if_neg hcs]
    have hEside : ({ ({ C with
        master_cycle := L.master_cycle + 1
        cpu_cycle := L.cpu_cycle + 1 } : Apu) with should_clock := f } : Apu).clock_to
        ({ ({ C with
          master_cycle := L.master_cycle + 1
          cpu_cycle := L.cpu_cycle + 1 } : Apu) with should_clock := f } : Apu).master_cycle =
        { ({ L with cpu_cycle := L.cpu_cycle + 1 } : Apu).clock_to (L.master_cycle + 1) with
          should_clock := f } := by
      show ({ ({ C with
        master_cycle := L.master_cycle + 1
        cpu_cycle := L.cpu_cycle + 1 } : Apu) with should_clock := f } : Apu).clock_to
        (L.master_cycle + 1) = _
      rw [clock_to_flag, hcatch]
    rw [hEside]
    by_cases hc1 : (H.shouldClock L.dmc || L.should_clock) = true
    · rw [if_pos hc1]
      dsimp only
      simp only [reduceIte]
      have hLside : ({ ({ L with
          master_cycle := L.master_cycle + 1
          cpu_cycle := L.cpu_cycle + 1 } : Apu) with should_clock := false } : Apu).clock_to
          ({ ({ L with
            master_cycle := L.master_cycle + 1
            cpu_cycle := L.cpu_cycle + 1 } : Apu) with should_clock := false } : Apu).master_cycle =
          { ({ L with cpu_cycle := L.cpu_cycle + 1 } : Apu).clock_to (L.master_cycle + 1) with
            should_clock := false } := by
        show ({ ({ L with
          master_cycle := L.master_cycle + 1
          cpu_cycle := L.cpu_cycle + 1 } : Apu) with should_clock := false } : Apu).clock_to
          (L.master_cycle + 1) = _
        rw [clock_to_flag, hLbump]
      rw [hLside]
      try dsimp only
      refine ⟨?_, ?_, ?_, ?_, s5, s6, ?_⟩
      · rw [s1, s2]
      · rw [s1, s2]
      · rw [s2]
      · rw [clock_to_self _ _ ?hcm rfl]
        case hcm =>
          show (({ L with cpu_cycle := L.cpu_cycle + 1 } : Apu).clock_to
            (L.master_cycle + 1)).cycle = _
          rw [s1, s2]
        rfl
      · intro hlt
        rw [s1, s2] at hlt
        exact absurd hlt (lt_irrefl _)
    · rw [if_neg hc1]
      dsimp only
      by_cases hc2 : (L.frame_counter.should_clock (L.master_cycle + 1 - L.cycle) ||
          H.irqPendingIn L.dmc (L.master_cycle + 1 - L.cycle)) = true
      · rw [if_pos hc2]
        have hLside : ({ L with
            master_cycle := L.master_cycle + 1
            cpu_cycle := L.cpu_cycle + 1 } : Apu).clock_to
            ({ L with
              master_cycle := L.master_cycle + 1
              cpu_cycle := L.cpu_cycle + 1 } : Apu).master_cycle =
            ({ L with cpu_cycle := L.cpu_cycle + 1 } : Apu).clock_to (L.master_cycle + 1) := by
          show ({ L with
            master_cycle := L.master_cycle + 1
            cpu_cycle := L.cpu_cycle + 1 } : Apu).clock_to (L.master_cycle + 1) = _
          rw [hLbump]
        rw [hLside]
        try dsimp only
        refine ⟨?_, ?_, ?_, ?_, s5, s6, ?_⟩
        · rw [s1, s2]
        · rw [s1, s2]
        · rw [s2]
        · rw [clock_to_self _ _ ?hcm2 rfl]
          case hcm2 =>
            show (({ L with cpu_cycle := L.cpu_cycle + 1 } : Apu).clock_to
              (L.master_cycle + 1)).cycle = _
            rw [s1, s2]
          exact stripFlag_setFlag _ f
        · intro hlt
          rw [s1, s2] at hlt
          exact absurd hlt (lt_irrefl _)
      · rw [if_neg hc2]
        simp only [Bool.or_eq_true, not_or, Bool.not_eq_true] at hc2
        obtain ⟨hb, hk, hmth⟩ := FrameCounter.should_clock_false hc2.1
        have hth : 1 ≤ L.frame_counter.threshold := by
          have := hWf.2.2
          omega
        have hLeq : ({ L with
            master_cycle := L.master_cycle + 1
            cpu_cycle := L.cpu_cycle + 1 } : Apu).clock_to
            ({ L with
              master_cycle := L.master_cycle + 1
              cpu_cycle := L.cpu_cycle + 1 } : Apu).master_cycle =
            ({ L with cpu_cycle := L.cpu_cycle + 1 } : Apu).clock_to (L.master_cycle + 1) := by
          show ({ L with
            master_cycle := L.master_cycle + 1
            cpu_cycle := L.cpu_cycle + 1 } : Apu).clock_to (L.master_cycle + 1) = _
          rw [hLbump]
        try dsimp only
        refine ⟨?_, ?_, ?_, ?_, hWf, hAl, ?_⟩
        · rw [s1, s2]
        · show L.cycle ≤ L.master_cycle + 1
          omega
        · rw [s2]
        · rw [hLeq]
          exact stripFlag_setFlag _ f
        · intro hlt
          exact ⟨hb, hk, by
            show L.frame_counter.cycle + (L.master_cycle + 1 - L.cycle) + 1 <
              L.frame_counter.threshold
            omega⟩

end Apu

namespace Apu

theorem inv_new : Inv Apu.new Apu.new := by
  refine ⟨rfl, le_rfl, rfl, ?_, ?_, ?_, ?_⟩
  · rw [clock_to_self Apu.new Apu.new.master_cycle rfl rfl]
  · exact ⟨rfl, by decide, by decide⟩
  · exact ⟨rfl, rfl, rfl, rfl, rfl⟩
  · intro h
    exact absurd h (by decide)

theorem inv_run (H : DmcHooks) (acts : List ApuAction) : ∀ (E L : Apu), Inv E L →
    Inv (acts.foldl (fun s a => match a with
          | .clock => s.clock_eager
          | w => s.applyWrite w) E)
        (acts.foldl (fun s a => match a with
          | .clock => s.clock_lazy H
          | w => s.applyWrite w) L) := by
  induction acts with
  | nil => intro E L h; exact h
  | cons a as ih =>
    intro E L h
    rw [List.foldl_cons, List.foldl_cons]
    apply ih
    cases a with
    | clock => exact inv_clock H E L h
    | ctrl c v => exact inv_write E L (.ctrl c v) (fun hx => nomatch hx) h
    | sweep c v => exact inv_write E L (.sweep c v) (fun hx => nomatch hx) h
    | timerLo c v => exact inv_write E L (.timerLo c v) (fun hx => nomatch hx) h
    | timerHi c v => exact inv_write E L (.timerHi c v) (fun hx => nomatch hx) h
    | linear v => exact inv_write E L (.linear v) (fun hx => nomatch hx) h
    | length c v => exact inv_write E L (.length c v) (fun hx => nomatch hx) h
    | dmcOutput v => exact inv_write E L (.dmcOutput v) (fun hx => nomatch hx) h
    | dmcAddr v => exact inv_write E L (.dmcAddr v) (fun hx => nomatch hx) h
    | status v => exact inv_write E L (.status v) (fun hx => nomatch hx) h
    | frame v => exact inv_write E L (.frame v) (fun hx => nomatch hx) h

theorem inv_runs (H : DmcHooks) (acts : List ApuAction) :
    Inv (Apu.eagerRun acts) (Apu.lazyRun H acts) := by
  unfold eagerRun lazyRun
  exact inv_run H acts Apu.new Apu.new inv_new

theorem clockToGo_audio : ∀ (fuel n : ℕ) (s : Apu),
    (clockToGo fuel s n).audio_samples = s.audio_samples := by
  intro fuel
  induction fuel with
  | zero => intro n s; cases n <;> rfl
  | succ f ih =>
    intro n s
    cases n with
    | zero => rfl
    | succ n =>
      rw [show clockToGo (f + 1) s (n + 1) =
        clockToGo f (clockUpdate s (n + 1)).1 (clockUpdate s (n + 1)).2 from rfl, ih,
        (clockUpdate_fields s (n + 1)).2.2]

theorem clock_to_audio (s : Apu) (t : ℕ) :
    (s.clock_to t).audio_samples = s.audio_samples :=
  clockToGo_audio _ _ _

end Apu

/-- C1: for every DMC hook choice and every schedule of CPU clocks and
register writes, driving the APU lazily (`clock_lazy()`, which pays a full
`clock_to` catch-up only at the `CYCLE_SIZE` batch boundary or when
`should_clock()` fires) produces exactly the same audio sample sequence as
the always-clock reference that calls `clock_to(c)` on every single
intervening cycle. -/
theorem C1_lazy_clocking_equivalence (H : DmcHooks) (acts : List ApuAction) :
    (Apu.lazyRun H acts).audio_samples = (Apu.eagerRun acts).audio_samples := by
  have h := Apu.inv_runs H acts
  have hEq := h.2.2.2.1
  have hcg := congrArg Apu.audio_samples hEq
  simpa [Apu.stripFlag, Apu.clock_to_audio] using hcg.symm
